import Mathlib

/-!
# lg-webos-ssap: the SSAP client of `main.go`

A shallow embedding of the protocol core of `main.go` (the reader goroutine of `main`,
`sendRequest`, `executeCommand`, `doAppAction`, `handleResponse`) together with the two
standard-library routines whose exact behaviour the program depends on
(`strconv.Atoi`, `strings.EqualFold`).

Conventions of the embedding.

* A Go `interface{}` holding decoded or constructed JSON is a `Json`; the nil interface is
  `Json.null`.  A `map[string]interface{}` is an association list read with `mapIndex`.
* The process is a record `Proc`: the global `clientKey`, the key file, the `reqContext` map,
  everything written to the connection, to standard output and to the logger, and a
  `Status` telling whether the process is still running.  `os.Exit`, `log.Fatal` and a
  failed type assertion end the run; statements after them are not executed.
* The results of `c.ReadMessage` followed by `json.Unmarshal` are the input of the reader
  loop (`Frame`); the result of `json.Unmarshal([]byte(*payload), &params)` is the
  `PayloadFlag`.
* A Go string is a Lean `String`, that is, valid UTF-8 text; `strconv.Atoi` works on its
  bytes (`goBytes`), `strings.EqualFold` on its runes.
* `c.WriteJSON` is taken to succeed: `Proc.sent` records what `sendRequest` hands to it; the
  `register` handshake, which `main` writes itself, is not part of it.
* `ioutil.WriteFile` may fail, and the program discards its error: what a call leaves in the
  key file is decided by the file system (`KeyFileWrite`), `Proc.keyFile` is the content of
  the file and `Proc.fileWrites` the contents handed to `ioutil.WriteFile`.
-/

namespace Ssap

/-! ## Data model -/

/-- A dynamic value as `encoding/json` stores it in an `interface{}`.  `int` is a Go `int`
placed by the program itself; `float` is a decoded `float64`, carried by its bit pattern
(the program never inspects one). -/
inductive Json where
  | null
  | bool (b : Bool)
  | int (n : Int)
  | float (bits : Nat)
  | str (s : String)
  | arr (items : List Json)
  | obj (fields : List (String × Json))

/-- A Go `map[string]interface{}`. -/
abbrev JsonMap := List (String × Json)

/-- The expression `m[key]` on a `map[string]interface{}`: the nil interface when absent. -/
def mapIndex (m : JsonMap) (key : String) : Json :=
  (m.lookup key).getD Json.null

/-- The assertion `v, _ := x.(string)`: the zero value when `x` is not a string. -/
def asString : Json → String
  | .str s => s
  | _ => ""

/-- The struct `Message`. `payload = Json.null` is the nil interface (omitted on the wire). -/
structure Message where
  type : String
  id : String
  uri : String
  payload : Json
  error : String

/-- A line handed to the `log` package. -/
inductive LogLine where
  | text (s : String)
  | readError
  | protocolError (msg : JsonMap)
  | invalidJsonPayload

/-- How the process stands: still running, ended by `os.Exit(code)`, crashed by a run-time
panic, or ended because the reader goroutine returned (`main` then returns). -/
inductive Status where
  | running
  | exited (code : Nat)
  | panicked
  | readerDone
  deriving DecidableEq

/-- The flag `-payload` as `doAppAction` sees it: the empty string, a non-empty text that
`json.Unmarshal` rejects, or a non-empty text decoded into `params` (`none` is the nil map
that the text `null` leaves). -/
inductive PayloadFlag where
  | empty
  | invalid
  | params (m : Option JsonMap)

/-- The process state. -/
structure Proc where
  status : Status
  clientKey : String
  keyFile : Option String
  fileWrites : List String
  reqContext : List (String × String)
  sent : List Message
  stdout : List Json
  log : List LogLine

/-- What the reader goroutine obtains from one `c.ReadMessage()` and `json.Unmarshal`:
a read error, a text that does not decode into a map, or the decoded map (the text `null`
decodes into the nil map, which reads like the empty one). -/
inductive Frame where
  | readError
  | undecodable
  | message (msgResp : JsonMap)

/-! ## Effects -/

/-- The calls `log.Println` and `log.Printf`. -/
def logPrint (l : LogLine) (p : Proc) : Proc :=
  { p with log := p.log ++ [l] }

/-- The call `os.Exit(code)`. -/
def osExit (code : Nat) (p : Proc) : Proc :=
  { p with status := Status.exited code }

/-- The calls `log.Fatal` and `log.Fatalf`: print, then `os.Exit(1)`. -/
def logFatal (l : LogLine) (p : Proc) : Proc :=
  osExit 1 (logPrint l p)

/-- A run-time panic (failed single-value type assertion). -/
def goPanic (p : Proc) : Proc :=
  { p with status := Status.panicked }

/-- The file that the flag `-key-file` names, as `ioutil.WriteFile` acts on it:
`write old content` is what the file holds after the call when it held `old` before
(`none`: there is no file).  A call that succeeds leaves `some content`; a call that fails
leaves whatever the file system left, for instance `old` when the file cannot be opened. -/
abbrev KeyFileWrite := Option String → String → Option String

/-- A key file on which every `ioutil.WriteFile` succeeds. -/
def writeSucceeds : KeyFileWrite :=
  fun _ content => some content

/-- A key file that cannot be opened for writing: `ioutil.WriteFile` fails and the file stays
as it was. -/
def writeDenied : KeyFileWrite :=
  fun old _ => old

/-- The statement `_ = ioutil.WriteFile(*keyFile, content, 0644)`: the file system decides
what the file holds afterwards, and the error is discarded. -/
def writeKeyFile (write : KeyFileWrite) (content : String) (p : Proc) : Proc :=
  { p with keyFile := write p.keyFile content, fileWrites := p.fileWrites ++ [content] }

/-- The read `m[key]` on a `map[string]string`. -/
def ctxGet (m : List (String × String)) (key : String) : String :=
  (m.lookup key).getD ""

/-- The assignment `m[key] = value` on a `map[string]string`. -/
def ctxSet (m : List (String × String)) (key value : String) : List (String × String) :=
  (key, value) :: m.filter (fun kv => kv.1 != key)

/-! ## Library routines -/

/-- The call `strings.Contains(s, substr)`, on the characters of both strings. -/
def stringsContains : List Char → List Char → Bool
  | [], substr => substr.isEmpty
  | c :: cs, substr => substr.isPrefixOf (c :: cs) || stringsContains cs substr

/-- The call `strings.HasPrefix(s, pre)`. -/
def stringsHasPrefix (s pre : String) : Bool :=
  pre.data.isPrefixOf s.data

/-- The call `strings.HasSuffix(s, suffix)`. -/
def stringsHasSuffix (s suffix : String) : Bool :=
  suffix.data.isSuffixOf s.data

/-- The bytes of a code point in UTF-8: a Go string is its byte sequence. -/
def utf8Encode (c : Nat) : List Nat :=
  if c < 0x80 then [c]
  else if c < 0x800 then [0xC0 + c / 64, 0x80 + c % 64]
  else if c < 0x10000 then [0xE0 + c / 4096, 0x80 + c / 64 % 64, 0x80 + c % 64]
  else [0xF0 + c / 262144, 0x80 + c / 4096 % 64, 0x80 + c / 64 % 64, 0x80 + c % 64]

/-- The conversion `[]byte(s)`. -/
def goBytes (cs : List Char) : List Nat :=
  cs.flatMap (fun c => utf8Encode c.toNat)

/-! ### `strconv.Atoi`, after `strconv/atoi.go` on a target with 64-bit `int` -/

/-- The constant `strconv.IntSize`. -/
def intSize : Nat := 64

/-- The sentinel errors `ErrSyntax` and `ErrRange` inside a `*NumError`. -/
inductive NumError where
  | errSyntax
  | errRange
  deriving DecidableEq

/-- Conversion of a mathematical integer to the `int64` with the same low 64 bits. -/
def wrapInt64 (x : Int) : Int :=
  (x + 2 ^ 63) % 2 ^ 64 - 2 ^ 63

/-- The helper `lower(c)`, that is `c | ('x' - 'X')`. -/
def lower (c : Nat) : Nat :=
  c ||| 32

/-- The digit loop of `ParseUint` for base 10: `n` is the `uint64` accumulator. -/
def parseUintLoop (cutoff maxVal : Nat) : List Nat → Nat → Nat × Option NumError
  | [], n => (n, none)
  | c :: cs, n =>
    let d? : Option Nat :=
      if 48 ≤ c ∧ c ≤ 57 then some (c - 48)
      else if 97 ≤ lower c ∧ lower c ≤ 122 then some (lower c - 97 + 10)
      else none
    match d? with
    | none => (0, some NumError.errSyntax)
    | some d =>
      if d ≥ 10 then (0, some NumError.errSyntax)
      else if n ≥ cutoff then (maxVal, some NumError.errRange)
      else
        let n10 := n * 10 % 2 ^ 64
        let n1 := (n10 + d) % 2 ^ 64
        if n1 < n10 ∨ n1 > maxVal then (maxVal, some NumError.errRange)
        else parseUintLoop cutoff maxVal cs n1

/-- The call `ParseUint(s, 10, bitSize)` with `bitSize` already resolved. -/
def parseUint (s : List Nat) (bitSize : Nat) : Nat × Option NumError :=
  if s = [] then (0, some NumError.errSyntax)
  else parseUintLoop ((2 ^ 64 - 1) / 10 + 1) (2 ^ bitSize - 1) s 0

/-- The call `ParseInt(s, 10, 0)`. -/
def parseInt (s : List Nat) : Int × Option NumError :=
  match s with
  | [] => (0, some NumError.errSyntax)
  | c0 :: rest =>
    let neg := c0 = 45
    let body := if c0 = 43 then rest else if c0 = 45 then rest else c0 :: rest
    match parseUint body intSize with
    | (_, some NumError.errSyntax) => (0, some NumError.errSyntax)
    | (un, err) =>
      let cutoff := 2 ^ (intSize - 1)
      if ¬ neg ∧ un ≥ cutoff then (Int.ofNat (cutoff - 1), some NumError.errRange)
      else if neg ∧ un > cutoff then (- Int.ofNat cutoff, some NumError.errRange)
      else
        let n := wrapInt64 (Int.ofNat un)
        (if neg then wrapInt64 (- n) else n, err)

/-- The digit loop of the fast path of `Atoi`: `n` is the `int` accumulator. -/
def atoiFastLoop : List Nat → Int → Int × Option NumError
  | [], n => (n, none)
  | ch :: cs, n =>
    let ch := (ch + 256 - 48) % 256
    if ch > 9 then (0, some NumError.errSyntax)
    else atoiFastLoop cs (wrapInt64 (n * 10 + Int.ofNat ch))

/-- The function `strconv.Atoi` on the bytes of its argument. -/
def atoiBytes (s : List Nat) : Int × Option NumError :=
  if 0 < s.length ∧ s.length < 19 then
    match s with
    | [] => (0, some NumError.errSyntax)
    | c0 :: rest =>
      if (c0 = 45 ∨ c0 = 43) ∧ rest.length < 1 then (0, some NumError.errSyntax)
      else
        let body := if c0 = 45 ∨ c0 = 43 then rest else c0 :: rest
        match atoiFastLoop body 0 with
        | (n, none) => (if c0 = 45 then wrapInt64 (- n) else n, none)
        | r => r
  else parseInt s

/-- The call `strconv.Atoi(s)`. -/
def Atoi (s : String) : Int × Option NumError :=
  atoiBytes (goBytes s.data)

/-! ### `strings.EqualFold` -/

/-- The Unicode part of `strings.EqualFold`: `orbit sr tr` is the outcome `r == tr` of the
walk `r := unicode.SimpleFold(sr); for r != sr && r < tr { r = unicode.SimpleFold(r) }`,
which the case-folding tables of package `unicode` decide.  It is consulted only for
`sr < tr` with `tr` outside ASCII. -/
abbrev FoldTable := Char → Char → Bool

/-- The rune loop of `strings.EqualFold` (its byte loop for ASCII is the same comparison on
one-byte runes). -/
def equalFoldRunes (orbit : FoldTable) : List Char → List Char → Bool
  | [], t => t.isEmpty
  | _ :: _, [] => false
  | sr :: s, tr :: t =>
    if tr = sr then equalFoldRunes orbit s t
    else
      let lo := if tr < sr then tr else sr
      let hi := if tr < sr then sr else tr
      if hi.toNat < 0x80 then
        if 65 ≤ lo.toNat ∧ lo.toNat ≤ 90 ∧ hi.toNat = lo.toNat + 32 then equalFoldRunes orbit s t
        else false
      else if orbit lo hi then equalFoldRunes orbit s t
      else false

/-- The call `strings.EqualFold(s, t)`. -/
def EqualFold (orbit : FoldTable) (s t : String) : Bool :=
  equalFoldRunes orbit s.data t.data

/-! ## The program -/

/-- The function `sendRequest`: one `Message` of type `request` written to the connection. -/
def sendRequest (uri : String) (payload : Json) (id : String) (p : Proc) : Proc :=
  { p with sent := p.sent ++ [{ type := "request", id := id, uri := uri, payload := payload,
                                error := "" }] }

/-- The function `doAppAction`; `payload` is the global flag `*payload`. -/
def doAppAction (payload : PayloadFlag) (command appId : String) (p : Proc) : Proc :=
  if command = "launch" then
    match payload with
    | PayloadFlag.empty =>
      sendRequest "ssap://system.launcher/launch" (Json.obj [("id", Json.str appId)])
        "req_launch" p
    | PayloadFlag.invalid => logFatal LogLine.invalidJsonPayload p
    | PayloadFlag.params m =>
      sendRequest "ssap://system.launcher/launch"
        (Json.obj [("id", Json.str appId),
                   ("params", match m with
                              | some fields => Json.obj fields
                              | none => Json.null)])
        "req_launch" p
  else if command = "close" then
    sendRequest "ssap://system.launcher/close" (Json.obj [("id", Json.str appId)]) "req_close" p
  else p

/-- The function `executeCommand`. -/
def executeCommand (payload : PayloadFlag) (command argument : String) (p : Proc) : Proc :=
  if command = "info" then
    sendRequest "ssap://system/getSystemInfo" Json.null "req_info" p
  else if command = "vol-get" then
    sendRequest "ssap://audio/getVolume" Json.null "req_vol_get" p
  else if command = "vol-set" then
    let vol := (Atoi argument).1
    sendRequest "ssap://audio/setVolume" (Json.obj [("volume", Json.int vol)]) "req_vol_set" p
  else if command = "vol-up" then
    sendRequest "ssap://audio/volumeUp" Json.null "req_vol_up" p
  else if command = "vol-down" then
    sendRequest "ssap://audio/volumeDown" Json.null "req_vol_down" p
  else if command = "mute" then
    sendRequest "ssap://audio/setMute" (Json.obj [("mute", Json.bool true)]) "req_mute" p
  else if command = "un-mute" then
    sendRequest "ssap://audio/setMute" (Json.obj [("mute", Json.bool false)]) "req_unmute" p
  else if command = "chan-get" then
    sendRequest "ssap://tv/getCurrentChannel" Json.null "req_chan_get" p
  else if command = "chan-up" then
    sendRequest "ssap://tv/channelUp" Json.null "req_chan_up" p
  else if command = "chan-down" then
    sendRequest "ssap://tv/channelDown" Json.null "req_chan_down" p
  else if command = "list-apps" then
    sendRequest "ssap://com.webos.applicationManager/listApps" Json.null "req_list_apps" p
  else if command = "launch" ∨ command = "close" then
    if (!stringsContains argument.data ".".data) && argument != "" then
      let p := { p with reqContext := ctxSet p.reqContext "pending_cmd" command }
      let p := { p with reqContext := ctxSet p.reqContext "pending_arg" argument }
      sendRequest "ssap://com.webos.applicationManager/listApps" Json.null "req_resolve_app" p
    else doAppAction payload command argument p
  else if command = "initialize-key" then
    osExit 0 (logPrint (LogLine.text "Key initialized and saved to file.") p)
  else if command = "toast" then
    if argument = "" then logFatal (LogLine.text "Toast message argument required") p
    else
      sendRequest "ssap://system.notifications/createToast"
        (Json.obj [("message", Json.str argument)]) "req_toast" p
  else if command = "turn-off" then
    sendRequest "ssap://system/turnOff" Json.null "req_turn_off" p
  else if command = "list-inputs" then
    sendRequest "ssap://tv/getExternalInputList" Json.null "req_list_inputs" p
  else if command = "set-input" then
    if argument = "" then logFatal (LogLine.text "Input ID argument required") p
    else
      sendRequest "ssap://tv/switchInput" (Json.obj [("inputId", Json.str argument)])
        "req_set_input" p
  else if command = "play" then
    sendRequest "ssap://media.controls/play" Json.null "req_play" p
  else if command = "pause" then
    sendRequest "ssap://media.controls/pause" Json.null "req_pause" p
  else if command = "stop" then
    sendRequest "ssap://media.controls/stop" Json.null "req_stop" p
  else if command = "rewind" then
    sendRequest "ssap://media.controls/rewind" Json.null "req_rewind" p
  else if command = "fast-forward" then
    sendRequest "ssap://media.controls/fastForward" Json.null "req_fast_forward" p
  else
    osExit 1 (logPrint (LogLine.text ("Unknown command: " ++ command)) p)

/-- What the `for _, a := range appsList` loop of `handleResponse` leaves behind. -/
inductive Scan where
  | panicked
  | noMatch
  | found (id : String)

/-- The loop `for _, a := range appsList` of `handleResponse`: an element that is not a map
fails the assertion `a.(map[string]interface{})`; the first element whose title or id folds
to `pendingArg` sets `foundID` to its id and breaks. -/
def scanApps (orbit : FoldTable) (pendingArg : String) : List Json → Scan
  | [] => Scan.noMatch
  | Json.obj appMap :: rest =>
    let title := asString (mapIndex appMap "title")
    let id := asString (mapIndex appMap "id")
    if EqualFold orbit title pendingArg || EqualFold orbit id pendingArg then Scan.found id
    else scanApps orbit pendingArg rest
  | _ :: _ => Scan.panicked

/-- The function `handleResponse`; `payloadFlag` is the global flag `*payload`. -/
def handleResponse (orbit : FoldTable) (payloadFlag : PayloadFlag) (msgID : String)
    (msgResp : JsonMap) (command _argument : String) (p : Proc) : Proc :=
  let payload := mapIndex msgResp "payload"
  if msgID = "req_resolve_app" then
    let pendingCmd := ctxGet p.reqContext "pending_cmd"
    let pendingArg := ctxGet p.reqContext "pending_arg"
    match payload with
    | Json.obj fields =>
      match mapIndex fields "apps" with
      | Json.arr appsList =>
        match scanApps orbit pendingArg appsList with
        | Scan.panicked => goPanic p
        | Scan.noMatch =>
          osExit 1 (logPrint (LogLine.text ("Could not find app with name: " ++ pendingArg)) p)
        | Scan.found foundID =>
          let p := logPrint
            (LogLine.text ("Resolved '" ++ pendingArg ++ "' to ID: " ++ foundID)) p
          if foundID != "" then doAppAction payloadFlag pendingCmd foundID p
          else
            osExit 1
              (logPrint (LogLine.text ("Could not find app with name: " ++ pendingArg)) p)
      | _ => osExit 1 (logPrint (LogLine.text "Could not parse app list for resolution") p)
    | _ => goPanic p
  else if stringsHasSuffix msgID "_get" || msgID = "req_info" || msgID = "req_list_apps"
      || msgID = "req_list_inputs" then
    osExit 0 { p with stdout := p.stdout ++ [payload] }
  else
    osExit 0
      (logPrint (LogLine.text ("Command " ++ command ++ " request sent/acknowledged.")) p)

/-- The flags `-cmd`, `-arg`, `-payload` and `-key-file` of one invocation (`main` leaves
with status 1 before it connects when `-cmd` is empty).  Of `-key-file` the reader only
needs how the named file takes a write; unless stated otherwise it takes every write. -/
structure Flags where
  cmd : String
  arg : String
  payload : PayloadFlag
  keyFileWrite : KeyFileWrite := writeSucceeds

/-- The `registered` branch of the reader goroutine up to the call of `executeCommand`:
adopt a client key that differs from the current one and hand it to `ioutil.WriteFile`;
`write` is the file that the flag `*keyFile` names. -/
def adoptClientKey (write : KeyFileWrite) (msgResp : JsonMap) (p : Proc) : Proc :=
  match mapIndex msgResp "payload" with
  | Json.obj payload =>
    match mapIndex payload "client-key" with
    | Json.str newKey =>
      if newKey != p.clientKey then
        let p := { p with clientKey := newKey }
        let p := logPrint (LogLine.text ("New Client Key: " ++ p.clientKey)) p
        writeKeyFile write p.clientKey p
      else p
    | _ => p
  | _ => p

/-- One iteration of the `for` loop of the reader goroutine in `main`. -/
def readerStep (orbit : FoldTable) (flags : Flags) (p : Proc) : Frame → Proc
  | Frame.readError => { logPrint LogLine.readError p with status := Status.readerDone }
  | Frame.undecodable => p
  | Frame.message msgResp =>
    let msgType := asString (mapIndex msgResp "type")
    if msgType = "registered" then
      let p := logPrint (LogLine.text "Registered successfully!") p
      let p := adoptClientKey flags.keyFileWrite msgResp p
      executeCommand flags.payload flags.cmd flags.arg p
    else if msgType = "response" then
      let msgID := asString (mapIndex msgResp "id")
      if stringsHasPrefix msgID "req_" then
        handleResponse orbit flags.payload msgID msgResp flags.cmd flags.arg p
      else p
    else if msgType = "error" then
      osExit 1 (logPrint (LogLine.protocolError msgResp) p)
    else p

/-- The reader goroutine on the frames it reads, in arrival order: it stops with the process. -/
def readerLoop (orbit : FoldTable) (flags : Flags) : Proc → List Frame → Proc
  | p, [] => p
  | p, f :: fs =>
    if p.status = Status.running then readerLoop orbit flags (readerStep orbit flags p f) fs
    else p

/-- The process when the reader goroutine starts: connected, nothing sent by the
dispatcher yet, `clientKey` as loaded and `keyFile` as found on disk. -/
def startProc (clientKey : String) (keyFile : Option String) : Proc :=
  { status := Status.running, clientKey := clientKey, keyFile := keyFile, fileWrites := [],
    reqContext := [], sent := [], stdout := [], log := [] }

/-! ## Vocabulary of the properties -/

/-- The fixed command set of the flag `-cmd`. -/
def fixedCommands : List String :=
  ["initialize-key", "info", "list-apps", "launch", "close", "vol-get", "vol-set", "vol-up",
   "vol-down", "mute", "un-mute", "chan-get", "chan-up", "chan-down", "toast", "turn-off",
   "list-inputs", "set-input", "play", "pause", "stop", "rewind", "fast-forward"]

/-- The command table: the endpoint each command addresses. -/
def endpointOf (command : String) : String :=
  if command = "info" then "ssap://system/getSystemInfo"
  else if command = "vol-get" then "ssap://audio/getVolume"
  else if command = "vol-set" then "ssap://audio/setVolume"
  else if command = "vol-up" then "ssap://audio/volumeUp"
  else if command = "vol-down" then "ssap://audio/volumeDown"
  else if command = "mute" then "ssap://audio/setMute"
  else if command = "un-mute" then "ssap://audio/setMute"
  else if command = "chan-get" then "ssap://tv/getCurrentChannel"
  else if command = "chan-up" then "ssap://tv/channelUp"
  else if command = "chan-down" then "ssap://tv/channelDown"
  else if command = "list-apps" then "ssap://com.webos.applicationManager/listApps"
  else if command = "launch" then "ssap://system.launcher/launch"
  else if command = "close" then "ssap://system.launcher/close"
  else if command = "toast" then "ssap://system.notifications/createToast"
  else if command = "turn-off" then "ssap://system/turnOff"
  else if command = "list-inputs" then "ssap://tv/getExternalInputList"
  else if command = "set-input" then "ssap://tv/switchInput"
  else if command = "play" then "ssap://media.controls/play"
  else if command = "pause" then "ssap://media.controls/pause"
  else if command = "stop" then "ssap://media.controls/stop"
  else if command = "rewind" then "ssap://media.controls/rewind"
  else if command = "fast-forward" then "ssap://media.controls/fastForward"
  else ""

/-- An argument is valid for a command: `toast` and `set-input` need a non-empty one, and
`launch` needs a `-payload` that is empty or decodes. -/
def validArgument (payload : PayloadFlag) (command argument : String) : Prop :=
  ((command = "toast" ∨ command = "set-input") → argument ≠ "") ∧
  (command = "launch" → payload ≠ PayloadFlag.invalid)

/-- The test `!strings.Contains(argument, ".") && argument != ""` of `executeCommand`. -/
def needsResolution (argument : String) : Bool :=
  (!stringsContains argument.data ".".data) && argument != ""

/-- The field `key` of a request payload that is a map. -/
def payloadField (payload : Json) (key : String) : Json :=
  match payload with
  | Json.obj fields => mapIndex fields key
  | _ => Json.null

/-- The app-listing request that starts the resolution of an app name. -/
def resolveRequest : Message :=
  { type := "request", id := "req_resolve_app",
    uri := "ssap://com.webos.applicationManager/listApps", payload := Json.null, error := "" }

/-- An ASCII decimal digit. -/
def isDigitChar (c : Char) : Bool :=
  decide (48 ≤ c.toNat ∧ c.toNat ≤ 57)

/-- The number that the decimal digits `ds` denote when they follow digits denoting `n`. -/
def digitsValueFrom (n : Nat) (ds : List Char) : Nat :=
  ds.foldl (fun n c => n * 10 + (c.toNat - 48)) n

/-- The number that the decimal digits `ds` denote. -/
def digitsValue (ds : List Char) : Nat :=
  digitsValueFrom 0 ds

/-- A text without its leading sign `+` (43) or `-` (45), if it has one. -/
def unsignedPart : List Char → List Char
  | [] => []
  | c :: rest => if c.toNat = 43 ∨ c.toNat = 45 then rest else c :: rest

/-- The text starts with the sign `-` (45). -/
def isNegative : List Char → Bool
  | [] => false
  | c :: _ => decide (c.toNat = 45)

/-- A syntactically valid decimal integer: an optional sign, then one or more digits. -/
def isDecimalInteger (s : String) : Bool :=
  !(unsignedPart s.data).isEmpty && (unsignedPart s.data).all isDigitChar

/-- The integer that a valid decimal integer denotes. -/
def decimalValue (s : String) : Int :=
  if isNegative s.data then - Int.ofNat (digitsValue (unsignedPart s.data))
  else Int.ofNat (digitsValue (unsignedPart s.data))

/-- The number denoted by the digits that follow the optional sign, up to the first
character that is not a digit. -/
def digitPrefixValue (s : String) : Nat :=
  digitsValue ((unsignedPart s.data).takeWhile isDigitChar)

/-- The parts of the process that sending, logging and exiting do not touch. -/
def SameStore (p q : Proc) : Prop :=
  q.clientKey = p.clientKey ∧ q.keyFile = p.keyFile ∧ q.fileWrites = p.fileWrites ∧
    q.stdout = p.stdout

/-- The messages `executeCommand` sends for given flags. -/
def initialRequests (payload : PayloadFlag) (command argument : String) : List Message :=
  (executeCommand payload command argument (startProc "" none)).sent

/-- A frame whose `type` is `registered`. -/
def isRegistered : Frame → Bool
  | Frame.message msgResp => decide (asString (mapIndex msgResp "type") = "registered")
  | _ => false

/-- The ids whose response `handleResponse` prints: the test
`strings.HasSuffix(msgID, "_get") || msgID == "req_info" || msgID == "req_list_apps" ||
msgID == "req_list_inputs"`. -/
def isQueryId (msgID : String) : Bool :=
  stringsHasSuffix msgID "_get" || msgID = "req_info" || msgID = "req_list_apps"
    || msgID = "req_list_inputs"

/-- The query-style commands. -/
def queryCommands : List String :=
  ["info", "list-apps", "list-inputs", "vol-get", "chan-get"]

/-- A validation error that is detected before anything is sent: `toast` or `set-input`
without argument, a command outside the fixed set, or `launch` with an invalid `-payload`
and an argument that needs no resolution. -/
def validationError (flags : Flags) : Prop :=
  ((flags.cmd = "toast" ∨ flags.cmd = "set-input") ∧ flags.arg = "") ∨
  (flags.cmd = "launch" ∧ flags.payload = PayloadFlag.invalid ∧
    needsResolution flags.arg = false) ∨
  flags.cmd ∉ fixedCommands

/-- The correlation id `id` may stand on a request of `command`: it is the app-resolution
id, or it starts with `req_` and is a query id exactly when the command is query-style. -/
def okId (command id : String) : Prop :=
  id = "req_resolve_app" ∨
    (stringsHasPrefix id "req_" = true ∧ (isQueryId id = true ↔ command ∈ queryCommands))

/-- An entry of the app list matches the pending argument: its title or its id equals the
argument up to case. -/
def entryMatches (orbit : FoldTable) (pendingArg : String) (appMap : JsonMap) : Bool :=
  EqualFold orbit (asString (mapIndex appMap "title")) pendingArg ||
    EqualFold orbit (asString (mapIndex appMap "id")) pendingArg

/-- The client key that a `registered` message offers, if it offers a string. -/
def offeredKey (msgResp : JsonMap) : Option String :=
  match mapIndex msgResp "payload" with
  | Json.obj payload =>
    match mapIndex payload "client-key" with
    | Json.str newKey => some newKey
    | _ => none
  | _ => none

/-- A fold table for texts in ASCII, on which `strings.EqualFold` never consults one. -/
def asciiOnly : FoldTable := fun _ _ => false

/-- The inbound message `{"type": "registered"}`. -/
def registeredFrame : Frame :=
  Frame.message [("type", Json.str "registered")]

/-- The inbound message `{"type": "response", "id": id, "payload": payload}`. -/
def responseFrame (id : String) (payload : Json) : Frame :=
  Frame.message [("type", Json.str "response"), ("id", Json.str id), ("payload", payload)]

/-- Every request sent so far carries an id that may stand on a request of `command`, and
the pending command, if one is recorded, is `command`. -/
def Coherent (command : String) (p : Proc) : Prop :=
  (∀ m ∈ p.sent, okId command m.id) ∧
    (ctxGet p.reqContext "pending_cmd" = "" ∨ ctxGet p.reqContext "pending_cmd" = command)

/-! ## Properties -/

/-! ### `executeCommand` on `launch` and `close` -/

theorem executeCommand_launch (payload : PayloadFlag) (argument : String) (p : Proc) :
    executeCommand payload "launch" argument p =
      if needsResolution argument then
        sendRequest "ssap://com.webos.applicationManager/listApps" Json.null "req_resolve_app"
          { p with reqContext :=
              ctxSet (ctxSet p.reqContext "pending_cmd" "launch") "pending_arg" argument }
      else doAppAction payload "launch" argument p := by
  simp only [executeCommand, needsResolution, String.reduceEq, ↓reduceIte, true_or]

theorem executeCommand_close (payload : PayloadFlag) (argument : String) (p : Proc) :
    executeCommand payload "close" argument p =
      if needsResolution argument then
        sendRequest "ssap://com.webos.applicationManager/listApps" Json.null "req_resolve_app"
          { p with reqContext :=
              ctxSet (ctxSet p.reqContext "pending_cmd" "close") "pending_arg" argument }
      else doAppAction payload "close" argument p := by
  simp only [executeCommand, needsResolution, String.reduceEq, ↓reduceIte, or_true]

theorem stringsContains_dot (cs : List Char) :
    stringsContains cs ".".data = true ↔ '.' ∈ cs := by
  induction cs with
  | nil => simp [stringsContains]
  | cons c cs ih =>
    simp only [stringsContains, Bool.or_eq_true, ih, List.mem_cons]
    have : ".".data.isPrefixOf (c :: cs) = true ↔ '.' = c := by
      show (['.'] : List Char).isPrefixOf (c :: cs) = true ↔ '.' = c
      simp [List.isPrefixOf]
    rw [this]

theorem needsResolution_eq_false (argument : String) :
    needsResolution argument = false ↔ ('.' ∈ argument.data ∨ argument = "") := by
  unfold needsResolution
  cases h : stringsContains argument.data ".".data
  · have h1 : ¬ '.' ∈ argument.data := by
      rw [← stringsContains_dot]; simp [h]
    simp [h1]
  · have h1 : '.' ∈ argument.data := (stringsContains_dot _).1 h
    simp [h1]

theorem needsResolution_eq_true (argument : String) :
    needsResolution argument = true ↔ (¬ '.' ∈ argument.data ∧ argument ≠ "") := by
  rw [← Bool.not_eq_false, needsResolution_eq_false]
  tauto

/-! ### C1: one request per command -/

/-- C1 (as stated, refuted): `initialize-key` belongs to the fixed command set and takes any
argument, yet `executeCommand` emits no message for it. -/
theorem initialize_key_emits_no_request :
    "initialize-key" ∈ fixedCommands ∧ validArgument PayloadFlag.empty "initialize-key" "" ∧
      ¬ ∃ m, (executeCommand PayloadFlag.empty "initialize-key" "" (startProc "" none)).sent
          = (startProc "" none).sent ++ [m] := by
  refine ⟨by simp [fixedCommands], ⟨by simp, by simp⟩, ?_⟩
  simp [executeCommand, osExit, logPrint, startProc]

/-- C1 (amended): for every command of the fixed set other than `initialize-key` and every
valid argument, `executeCommand` appends exactly one message to the connection; it has type
`request`, and its uri is the endpoint of the command table, except that `launch` and `close`
with a non-empty argument without a dot address the app-listing endpoint. -/
theorem executeCommand_emits_one_request (payload : PayloadFlag) (command argument : String)
    (p : Proc) (hc : command ∈ fixedCommands) (hk : command ≠ "initialize-key")
    (hv : validArgument payload command argument) :
    ∃ m, (executeCommand payload command argument p).sent = p.sent ++ [m] ∧
      m.type = "request" ∧
      m.uri = (if (command = "launch" ∨ command = "close") ∧ needsResolution argument = true
                then "ssap://com.webos.applicationManager/listApps"
                else endpointOf command) := by
  obtain ⟨hv1, hv2⟩ := hv
  simp only [fixedCommands, List.mem_cons, List.mem_singleton, List.not_mem_nil, or_false] at hc
  rcases hc with rfl | rfl | rfl | rfl | rfl | rfl | rfl | rfl | rfl | rfl | rfl | rfl | rfl
    | rfl | rfl | rfl | rfl | rfl | rfl | rfl | rfl | rfl | rfl
  · exact absurd rfl hk
  case inr.inr.inr.inl =>
    have hp : payload ≠ PayloadFlag.invalid := hv2 rfl
    rw [executeCommand_launch]
    cases h : needsResolution argument
    · cases payload with
      | invalid => exact absurd rfl hp
      | empty => exact ⟨_, rfl, rfl, by simp [endpointOf]⟩
      | params m => exact ⟨_, rfl, rfl, by simp [endpointOf]⟩
    · exact ⟨_, rfl, rfl, by simp⟩
  case inr.inr.inr.inr.inl =>
    rw [executeCommand_close]
    cases h : needsResolution argument
    · exact ⟨_, rfl, rfl, by simp [endpointOf]⟩
    · exact ⟨_, rfl, rfl, by simp⟩
  case inr.inr.inr.inr.inr.inr.inr.inr.inr.inr.inr.inr.inr.inr.inl =>
    have ha : argument ≠ "" := hv1 (Or.inl rfl)
    refine ⟨_, by simp [executeCommand, sendRequest, ha]; rfl, rfl, ?_⟩
    simp [endpointOf]
  case inr.inr.inr.inr.inr.inr.inr.inr.inr.inr.inr.inr.inr.inr.inr.inr.inr.inl =>
    have ha : argument ≠ "" := hv1 (Or.inr rfl)
    refine ⟨_, by simp [executeCommand, sendRequest, ha]; rfl, rfl, ?_⟩
    simp [endpointOf]
  all_goals
    refine ⟨_, by simp [executeCommand, sendRequest]; rfl, rfl, ?_⟩
    simp [endpointOf]

/-- C1 (amended), at `toast` with the argument `Hello World`. -/
theorem executeCommand_emits_one_request_witness :
    ∃ m, (executeCommand PayloadFlag.empty "toast" "Hello World" (startProc "" none)).sent
        = (startProc "" none).sent ++ [m] ∧
      m.type = "request" ∧
      m.uri = (if ("toast" = "launch" ∨ "toast" = "close") ∧
                  needsResolution "Hello World" = true
                then "ssap://com.webos.applicationManager/listApps"
                else endpointOf "toast") :=
  executeCommand_emits_one_request PayloadFlag.empty "toast" "Hello World" (startProc "" none)
    (by simp [fixedCommands]) (by decide) ⟨fun _ => by decide, fun h => absurd h (by decide)⟩

/-! ### C4: direct dispatch or deferral of `launch` and `close` -/

/-- C4 (as stated, refuted): the empty argument contains no dot, yet `launch` sends the action
request at once, sends no app-listing request and records no pending context. -/
theorem launch_empty_argument_not_deferred :
    ¬ '.' ∈ "".data ∧
      (executeCommand PayloadFlag.empty "launch" "" (startProc "" none)).sent =
        [{ type := "request", id := "req_launch", uri := "ssap://system.launcher/launch",
           payload := Json.obj [("id", Json.str "")], error := "" }] ∧
      (executeCommand PayloadFlag.empty "launch" "" (startProc "" none)).reqContext = [] := by
  refine ⟨by simp, ?_, ?_⟩ <;> rfl

/-- C4 (amended): for `launch` and `close`, an argument that contains a dot or is empty is
dispatched directly, as exactly one action request whose payload id is the argument, with no
app-listing request and the pending context untouched (for `launch` provided the flag
`-payload` is not invalid); a non-empty argument without a dot sends exactly the app-listing
request `req_resolve_app`, no action request, and records the command and the argument as
pending context. -/
theorem executeCommand_app_dispatch (payload : PayloadFlag) (command argument : String)
    (p : Proc) (hc : command = "launch" ∨ command = "close") :
    (('.' ∈ argument.data ∨ argument = "") →
      ¬ (command = "launch" ∧ payload = PayloadFlag.invalid) →
      ∃ m, (executeCommand payload command argument p).sent = p.sent ++ [m] ∧
        m.type = "request" ∧ m.uri = endpointOf command ∧
        m.id = (if command = "launch" then "req_launch" else "req_close") ∧
        payloadField m.payload "id" = Json.str argument ∧
        (executeCommand payload command argument p).reqContext = p.reqContext) ∧
    ((¬ '.' ∈ argument.data ∧ argument ≠ "") →
      (executeCommand payload command argument p).sent = p.sent ++ [resolveRequest] ∧
      ctxGet (executeCommand payload command argument p).reqContext "pending_cmd" = command ∧
      ctxGet (executeCommand payload command argument p).reqContext "pending_arg"
        = argument) := by
  constructor
  · intro hdot hpay
    have hn := (needsResolution_eq_false argument).2 hdot
    rcases hc with rfl | rfl
    · rw [executeCommand_launch, hn]
      cases payload with
      | invalid => exact absurd ⟨rfl, rfl⟩ hpay
      | empty => exact ⟨_, rfl, rfl, by simp [endpointOf], by simp, rfl, rfl⟩
      | params m => exact ⟨_, rfl, rfl, by simp [endpointOf], by simp, rfl, rfl⟩
    · rw [executeCommand_close, hn]
      exact ⟨_, rfl, rfl, by simp [endpointOf], by simp, rfl, rfl⟩
  · intro hdot
    have hn := (needsResolution_eq_true argument).2 hdot
    rcases hc with rfl | rfl
    · rw [executeCommand_launch, hn]
      refine ⟨rfl, ?_, ?_⟩ <;> simp [sendRequest, ctxGet, ctxSet, List.lookup]
    · rw [executeCommand_close, hn]
      refine ⟨rfl, ?_, ?_⟩ <;> simp [sendRequest, ctxGet, ctxSet, List.lookup]

/-- C4 (amended), at `launch` with the argument `com.webos.app.test`. -/
theorem executeCommand_app_dispatch_witness :
    ∃ m, (executeCommand PayloadFlag.empty "launch" "com.webos.app.test"
            (startProc "" none)).sent = (startProc "" none).sent ++ [m] ∧
      m.type = "request" ∧ m.uri = endpointOf "launch" ∧
      m.id = (if "launch" = "launch" then "req_launch" else "req_close") ∧
      payloadField m.payload "id" = Json.str "com.webos.app.test" ∧
      (executeCommand PayloadFlag.empty "launch" "com.webos.app.test"
        (startProc "" none)).reqContext = (startProc "" none).reqContext :=
  (executeCommand_app_dispatch PayloadFlag.empty "launch" "com.webos.app.test"
      (startProc "" none) (Or.inl rfl)).1
    (Or.inl (by decide)) (fun h => nomatch h.2)

/-! ### `strconv.Atoi` against decimal notation -/

theorem utf8Encode_head (c : Char) :
    ∃ b bs, utf8Encode c.toNat = b :: bs ∧ b < 256 ∧
      (c.toNat < 128 → b = c.toNat ∧ bs = []) ∧ (128 ≤ c.toNat → 192 ≤ b) := by
  have hv : c.toNat < 0x110000 := by
    have := c.valid
    simp only [Char.toNat, UInt32.isValidChar, Nat.isValidChar] at *
    omega
  unfold utf8Encode
  split_ifs with h1 h2 h3
  · exact ⟨_, _, rfl, by omega, fun _ => ⟨rfl, rfl⟩, fun h => by omega⟩
  · exact ⟨_, _, rfl, by omega, fun h => by omega, fun _ => by omega⟩
  · exact ⟨_, _, rfl, by omega, fun h => by omega, fun _ => by omega⟩
  · exact ⟨_, _, rfl, by omega, fun h => by omega, fun _ => by omega⟩

theorem goBytes_cons (c : Char) (cs : List Char) :
    goBytes (c :: cs) = utf8Encode c.toNat ++ goBytes cs := by
  simp [goBytes]

theorem isDigitChar_iff (c : Char) : isDigitChar c = true ↔ 48 ≤ c.toNat ∧ c.toNat ≤ 57 := by
  simp [isDigitChar]

theorem goBytes_digits (ds : List Char) (tail : List Char)
    (hd : ∀ c ∈ ds, isDigitChar c = true) :
    goBytes (ds ++ tail) = ds.map Char.toNat ++ goBytes tail := by
  induction ds with
  | nil => simp
  | cons c ds ih =>
    have hc := (isDigitChar_iff c).1 (hd c (List.mem_cons_self _ _))
    obtain ⟨b, bs, he, -, h1, -⟩ := utf8Encode_head c
    obtain ⟨rfl, rfl⟩ := h1 (by omega)
    rw [List.cons_append, goBytes_cons, he, ih (fun x hx => hd x (List.mem_cons_of_mem _ hx))]
    simp

theorem digitsValueFrom_cons (n : Nat) (c : Char) (ds : List Char) :
    digitsValueFrom n (c :: ds) = digitsValueFrom (n * 10 + (c.toNat - 48)) ds := rfl

theorem le_digitsValueFrom (n : Nat) (ds : List Char) : n ≤ digitsValueFrom n ds := by
  induction ds generalizing n with
  | nil => exact le_refl _
  | cons c ds ih =>
    rw [digitsValueFrom_cons]
    exact le_trans (by omega) (ih _)

theorem digitsValueFrom_lt (n : Nat) (ds : List Char) (hd : ∀ c ∈ ds, isDigitChar c = true) :
    digitsValueFrom n ds < (n + 1) * 10 ^ ds.length := by
  induction ds generalizing n with
  | nil => simp [digitsValueFrom]
  | cons c ds ih =>
    have hc := (isDigitChar_iff c).1 (hd c (List.mem_cons_self _ _))
    rw [digitsValueFrom_cons, List.length_cons, pow_succ]
    have h1 := ih (n * 10 + (c.toNat - 48)) (fun x hx => hd x (List.mem_cons_of_mem _ hx))
    have h2 : (n * 10 + (c.toNat - 48) + 1) * 10 ^ ds.length
        ≤ (n + 1) * 10 * 10 ^ ds.length :=
      Nat.mul_le_mul_right _ (by omega)
    calc digitsValueFrom (n * 10 + (c.toNat - 48)) ds
        < (n * 10 + (c.toNat - 48) + 1) * 10 ^ ds.length := h1
      _ ≤ (n + 1) * 10 * 10 ^ ds.length := h2
      _ = (n + 1) * (10 ^ ds.length * 10) := by ring

theorem parseUintLoop_nondigit (cutoff maxVal b n : Nat) (t : List Nat)
    (hb : ¬ (48 ≤ b ∧ b ≤ 57)) :
    parseUintLoop cutoff maxVal (b :: t) n = (0, some NumError.errSyntax) := by
  unfold parseUintLoop
  simp only [if_neg hb]
  by_cases h1 : 97 ≤ lower b ∧ lower b ≤ 122
  · have h10 : lower b - 97 + 10 ≥ 10 := by omega
    simp only [if_pos h1, if_pos h10]
  · simp only [if_neg h1]

theorem parseUintLoop_digits (ds : List Char) (t : List Nat) (n : Nat)
    (hd : ∀ c ∈ ds, isDigitChar c = true) (hv : digitsValueFrom n ds < 2 ^ 64) :
    parseUintLoop ((2 ^ 64 - 1) / 10 + 1) (2 ^ 64 - 1) (ds.map Char.toNat ++ t) n =
      parseUintLoop ((2 ^ 64 - 1) / 10 + 1) (2 ^ 64 - 1) t (digitsValueFrom n ds) := by
  induction ds generalizing n with
  | nil => rfl
  | cons c ds ih =>
    have hc := (isDigitChar_iff c).1 (hd c (List.mem_cons_self _ _))
    rw [digitsValueFrom_cons] at hv ⊢
    have hle := le_digitsValueFrom (n * 10 + (c.toNat - 48)) ds
    rw [List.map_cons, List.cons_append, parseUintLoop]
    simp only [if_pos hc]
    have hn : ¬ n ≥ (2 ^ 64 - 1) / 10 + 1 := by norm_num at hv hle ⊢; omega
    have hd10 : ¬ c.toNat - 48 ≥ 10 := by omega
    have e1 : n * 10 % 2 ^ 64 = n * 10 := Nat.mod_eq_of_lt (by norm_num at hv hle ⊢; omega)
    have e2 : (n * 10 + (c.toNat - 48)) % 2 ^ 64 = n * 10 + (c.toNat - 48) :=
      Nat.mod_eq_of_lt (by omega)
    have hov : ¬ (n * 10 + (c.toNat - 48) < n * 10 ∨ n * 10 + (c.toNat - 48) > 2 ^ 64 - 1) := by
      norm_num at hv hle ⊢; omega
    simp only [if_neg hd10, if_neg hn, e1, e2, if_neg hov]
    exact ih _ (fun x hx => hd x (List.mem_cons_of_mem _ hx)) hv

theorem atoiFastLoop_nondigit (b : Nat) (t : List Nat) (n : Int) (hlt : b < 256)
    (hb : ¬ (48 ≤ b ∧ b ≤ 57)) :
    atoiFastLoop (b :: t) n = (0, some NumError.errSyntax) := by
  unfold atoiFastLoop
  have : (b + 256 - 48) % 256 > 9 := by omega
  simp only [if_pos this]

theorem atoiFastLoop_digits_nondigit (ds : List Char) (b : Nat) (t : List Nat) (n : Int)
    (hd : ∀ c ∈ ds, isDigitChar c = true) (hlt : b < 256) (hb : ¬ (48 ≤ b ∧ b ≤ 57)) :
    atoiFastLoop (ds.map Char.toNat ++ b :: t) n = (0, some NumError.errSyntax) := by
  induction ds generalizing n with
  | nil => exact atoiFastLoop_nondigit b t n hlt hb
  | cons c ds ih =>
    have hc := (isDigitChar_iff c).1 (hd c (List.mem_cons_self _ _))
    rw [List.map_cons, List.cons_append, atoiFastLoop]
    have : ¬ (c.toNat + 256 - 48) % 256 > 9 := by omega
    simp only [if_neg this]
    exact ih _ (fun x hx => hd x (List.mem_cons_of_mem _ hx))

theorem wrapInt64_of_lt (x : Nat) (h : x < 2 ^ 63) : wrapInt64 (Int.ofNat x) = Int.ofNat x := by
  unfold wrapInt64
  have h' : x < 9223372036854775808 := by norm_num at h; exact h
  norm_num
  omega

theorem atoiFastLoop_digits (ds : List Char) (n : Nat)
    (hd : ∀ c ∈ ds, isDigitChar c = true) (hv : digitsValueFrom n ds < 2 ^ 63) :
    atoiFastLoop (ds.map Char.toNat) (Int.ofNat n) = (Int.ofNat (digitsValueFrom n ds), none) := by
  induction ds generalizing n with
  | nil => rfl
  | cons c ds ih =>
    have hc := (isDigitChar_iff c).1 (hd c (List.mem_cons_self _ _))
    rw [digitsValueFrom_cons] at hv ⊢
    have hle := le_digitsValueFrom (n * 10 + (c.toNat - 48)) ds
    rw [List.map_cons, atoiFastLoop]
    have h9 : ¬ (c.toNat + 256 - 48) % 256 > 9 := by omega
    have he : (c.toNat + 256 - 48) % 256 = c.toNat - 48 := by omega
    rw [if_neg h9, he]
    have : Int.ofNat n * 10 + Int.ofNat (c.toNat - 48) = Int.ofNat (n * 10 + (c.toNat - 48)) := by
      simp
    rw [this, wrapInt64_of_lt _ (lt_of_le_of_lt hle hv)]
    exact ih _ (fun x hx => hd x (List.mem_cons_of_mem _ hx)) hv

theorem parseUint_digits (ds : List Char) (hne : ds ≠ [])
    (hd : ∀ c ∈ ds, isDigitChar c = true) (hv : digitsValue ds < 2 ^ 64) :
    parseUint (ds.map Char.toNat) intSize = (digitsValue ds, none) := by
  have h := parseUintLoop_digits ds [] 0 hd hv
  rw [List.append_nil] at h
  have hm : ds.map Char.toNat ≠ [] := by simpa using hne
  rw [parseUint, if_neg hm]
  exact h

theorem parseUint_digits_nondigit (ds : List Char) (b : Nat) (t : List Nat)
    (hd : ∀ c ∈ ds, isDigitChar c = true) (hb : ¬ (48 ≤ b ∧ b ≤ 57))
    (hv : digitsValue ds < 2 ^ 64) :
    parseUint (ds.map Char.toNat ++ b :: t) intSize = (0, some NumError.errSyntax) := by
  have hm : ds.map Char.toNat ++ b :: t ≠ [] := by simp
  rw [parseUint, if_neg hm]
  show parseUintLoop _ (2 ^ 64 - 1) _ 0 = _
  rw [parseUintLoop_digits ds (b :: t) 0 hd hv, parseUintLoop_nondigit _ _ _ _ _ hb]

theorem digitsValue_lt_of_length (ds : List Char) (hd : ∀ c ∈ ds, isDigitChar c = true)
    (hl : ds.length ≤ 18) : digitsValue ds < 2 ^ 63 := by
  have h1 := digitsValueFrom_lt 0 ds hd
  have h2 : 10 ^ ds.length ≤ 10 ^ 18 := Nat.pow_le_pow_right (by norm_num) hl
  have h3 : (10 : Nat) ^ 18 < 2 ^ 63 := by norm_num
  unfold digitsValue
  omega

theorem wrapInt64_neg_of_le (x : Nat) (h : x ≤ 2 ^ 63) :
    wrapInt64 (- wrapInt64 (Int.ofNat x)) = - Int.ofNat x := by
  unfold wrapInt64
  have h' : x ≤ 9223372036854775808 := by norm_num at h; exact h
  norm_num
  omega

theorem atoiBytes_digits (ds : List Char) (hne : ds ≠ [])
    (hd : ∀ c ∈ ds, isDigitChar c = true) (hv : digitsValue ds < 2 ^ 63) :
    atoiBytes (ds.map Char.toNat) = (Int.ofNat (digitsValue ds), none) := by
  obtain ⟨c, cs, rfl⟩ := List.exists_cons_of_ne_nil hne
  have hc := (isDigitChar_iff c).1 (hd c (List.mem_cons_self _ _))
  have h45 : ¬ c.toNat = 45 := by omega
  have h43 : ¬ c.toNat = 43 := by omega
  have hfast := atoiFastLoop_digits (c :: cs) 0 hd hv
  have hslow := parseUint_digits (c :: cs) hne hd (lt_trans hv (by norm_num))
  rw [List.map_cons] at hfast hslow ⊢
  unfold atoiBytes
  split_ifs with hlen
  · simp only [h45, h43, or_self, false_and, if_false]
    rw [show (0 : Int) = Int.ofNat 0 from rfl, hfast]
    rfl
  · simp only [parseInt, h45, h43, if_false, hslow]
    have hv' : digitsValue (c :: cs) < 9223372036854775808 := by norm_num at hv; exact hv
    have : ¬ digitsValue (c :: cs) ≥ 2 ^ (intSize - 1) := by
      simp only [intSize]; norm_num; exact hv'
    simp only [this, and_false, false_and, if_false]
    exact congrArg (fun z => (z, (none : Option NumError))) (wrapInt64_of_lt _ hv)

theorem atoiBytes_plus_digits (ds : List Char) (hne : ds ≠ [])
    (hd : ∀ c ∈ ds, isDigitChar c = true) (hv : digitsValue ds < 2 ^ 63) :
    atoiBytes (43 :: ds.map Char.toNat) = (Int.ofNat (digitsValue ds), none) := by
  have hslow := parseUint_digits ds hne hd (lt_trans hv (by norm_num))
  have hfast := atoiFastLoop_digits ds 0 hd hv
  have hlen0 : ¬ (ds.map Char.toNat).length < 1 := by
    cases ds with
    | nil => exact absurd rfl hne
    | cons c cs => simp
  have h1 : ¬ digitsValue ds ≥ 2 ^ (intSize - 1) := by
    simp only [intSize]; norm_num at hv ⊢; exact hv
  unfold atoiBytes
  by_cases hlen : 0 < (43 :: ds.map Char.toNat).length ∧ (43 :: ds.map Char.toNat).length < 19
  · rw [if_pos hlen]
    simp only [or_true, true_and, if_neg hlen0, if_true]
    rw [show (0 : Int) = Int.ofNat 0 from rfl, hfast]
    rfl
  · rw [if_neg hlen]
    simp only [parseInt, if_true, hslow]
    simp only [if_neg, h1, and_false, false_and, if_false, Nat.reduceEqDiff, not_false_eq_true]
    exact congrArg (fun z => (z, (none : Option NumError))) (wrapInt64_of_lt _ hv)

theorem atoiBytes_minus_digits (ds : List Char) (hne : ds ≠ [])
    (hd : ∀ c ∈ ds, isDigitChar c = true) (hv : digitsValue ds ≤ 2 ^ 63) :
    atoiBytes (45 :: ds.map Char.toNat) = (- Int.ofNat (digitsValue ds), none) := by
  have hslow := parseUint_digits ds hne hd (lt_of_le_of_lt hv (by norm_num))
  have hlen0 : ¬ (ds.map Char.toNat).length < 1 := by
    cases ds with
    | nil => exact absurd rfl hne
    | cons c cs => simp
  have h1 : ¬ digitsValue ds > 2 ^ (intSize - 1) := by
    simp only [intSize]; norm_num at hv ⊢; exact hv
  unfold atoiBytes
  by_cases hlen : 0 < (45 :: ds.map Char.toNat).length ∧ (45 :: ds.map Char.toNat).length < 19
  · rw [if_pos hlen]
    have hl : ds.length ≤ 18 := by
      simp only [List.length_cons, List.length_map] at hlen; omega
    have hv' := digitsValue_lt_of_length ds hd hl
    have hfast := atoiFastLoop_digits ds 0 hd hv'
    simp only [true_or, true_and, if_neg hlen0, if_true]
    rw [show (0 : Int) = Int.ofNat 0 from rfl, hfast]
    have := wrapInt64_neg_of_le _ hv
    rw [wrapInt64_of_lt _ hv'] at this
    exact congrArg (fun z => (z, (none : Option NumError))) this
  · rw [if_neg hlen]
    simp only [parseInt, Nat.reduceEqDiff, if_false, if_true, hslow]
    simp only [h1, and_false, false_and, if_false, not_true_eq_false, true_and, if_true]
    exact congrArg (fun z => (z, (none : Option NumError))) (wrapInt64_neg_of_le _ hv)

theorem atoiBytes_nil : atoiBytes [] = (0, some NumError.errSyntax) := by
  simp [atoiBytes, parseInt]

theorem atoiBytes_sign_only (c0 : Nat) (hs : c0 = 43 ∨ c0 = 45) :
    atoiBytes [c0] = (0, some NumError.errSyntax) := by
  rcases hs with rfl | rfl <;> simp [atoiBytes]

theorem atoiBytes_digits_nondigit (ds : List Char) (b : Nat) (t : List Nat)
    (hd : ∀ c ∈ ds, isDigitChar c = true) (hlt : b < 256) (hb : ¬ (48 ≤ b ∧ b ≤ 57))
    (hsign : ds = [] → b ≠ 43 ∧ b ≠ 45) (hv : digitsValue ds < 2 ^ 64) :
    atoiBytes (ds.map Char.toNat ++ b :: t) = (0, some NumError.errSyntax) := by
  have hfast := atoiFastLoop_digits_nondigit ds b t 0 hd hlt hb
  have hslow := parseUint_digits_nondigit ds b t hd hb hv
  obtain ⟨c0, rest, hL, h43, h45⟩ : ∃ c0 rest, ds.map Char.toNat ++ b :: t = c0 :: rest ∧
      c0 ≠ 43 ∧ c0 ≠ 45 := by
    cases ds with
    | nil => exact ⟨b, t, rfl, (hsign rfl).1, (hsign rfl).2⟩
    | cons c cs =>
      have hc := (isDigitChar_iff c).1 (hd c (List.mem_cons_self _ _))
      exact ⟨c.toNat, cs.map Char.toNat ++ b :: t, rfl, by omega, by omega⟩
  rw [hL] at hfast hslow ⊢
  unfold atoiBytes
  by_cases hlen : 0 < (c0 :: rest).length ∧ (c0 :: rest).length < 19
  · rw [if_pos hlen]
    simp only [h45, h43, or_self, false_and, if_false, hfast]
  · rw [if_neg hlen]
    simp only [parseInt, h45, h43, if_false, hslow]

theorem atoiBytes_sign_digits_nondigit (c0 : Nat) (ds : List Char) (b : Nat) (t : List Nat)
    (hs : c0 = 43 ∨ c0 = 45) (hd : ∀ c ∈ ds, isDigitChar c = true) (hlt : b < 256)
    (hb : ¬ (48 ≤ b ∧ b ≤ 57)) (hv : digitsValue ds < 2 ^ 64) :
    atoiBytes (c0 :: (ds.map Char.toNat ++ b :: t)) = (0, some NumError.errSyntax) := by
  have hfast := atoiFastLoop_digits_nondigit ds b t 0 hd hlt hb
  have hslow := parseUint_digits_nondigit ds b t hd hb hv
  have hlen0 : ¬ (ds.map Char.toNat ++ b :: t).length < 1 := by simp
  have hbody : (if c0 = 43 then ds.map Char.toNat ++ b :: t
      else if c0 = 45 then ds.map Char.toNat ++ b :: t
      else c0 :: (ds.map Char.toNat ++ b :: t)) = ds.map Char.toNat ++ b :: t := by
    rcases hs with h | h <;> simp [h]
  have hs' : c0 = 45 ∨ c0 = 43 := hs.symm
  unfold atoiBytes
  by_cases hlen : 0 < (c0 :: (ds.map Char.toNat ++ b :: t)).length ∧
      (c0 :: (ds.map Char.toNat ++ b :: t)).length < 19
  · rw [if_pos hlen]
    simp only [hs', true_and, if_neg hlen0, if_true, hfast]
  · rw [if_neg hlen]
    simp only [parseInt, hbody, hslow]

theorem exists_first_nondigit (l : List Char) (h : l.all isDigitChar = false) :
    ∃ c t, l = l.takeWhile isDigitChar ++ c :: t ∧ isDigitChar c = false := by
  induction l with
  | nil => simp at h
  | cons a l ih =>
    cases ha : isDigitChar a
    · exact ⟨a, l, by simp [List.takeWhile, ha], ha⟩
    · have hl : l.all isDigitChar = false := by
        simpa [List.all_cons, ha] using h
      obtain ⟨c, t, h1, h2⟩ := ih hl
      refine ⟨c, t, ?_, h2⟩
      simp only [List.takeWhile, ha, List.cons_append]
      exact congrArg (List.cons a) h1

theorem takeWhile_isDigitChar (l : List Char) :
    ∀ c ∈ l.takeWhile isDigitChar, isDigitChar c = true := by
  intro c hc
  exact (List.mem_takeWhile_imp hc)

theorem utf8Encode_nondigit (c : Char) (h : isDigitChar c = false) :
    ∃ b bs, utf8Encode c.toNat = b :: bs ∧ b < 256 ∧ ¬ (48 ≤ b ∧ b ≤ 57) ∧
      (¬ (c.toNat = 43 ∨ c.toNat = 45) → b ≠ 43 ∧ b ≠ 45) := by
  have hc : ¬ (48 ≤ c.toNat ∧ c.toNat ≤ 57) := by
    rw [← isDigitChar_iff, h]; simp
  obtain ⟨b, bs, he, hlt, h1, h2⟩ := utf8Encode_head c
  refine ⟨b, bs, he, hlt, ?_, ?_⟩
  · by_cases h128 : c.toNat < 128
    · obtain ⟨rfl, -⟩ := h1 h128; exact hc
    · have := h2 (by omega); omega
  · intro hs
    by_cases h128 : c.toNat < 128
    · obtain ⟨rfl, -⟩ := h1 h128; omega
    · have := h2 (by omega); omega

theorem goBytes_digits_nondigit (l : List Char) (h : l.all isDigitChar = false) :
    ∃ b t, goBytes l = (l.takeWhile isDigitChar).map Char.toNat ++ b :: t ∧ b < 256 ∧
      ¬ (48 ≤ b ∧ b ≤ 57) ∧
      (l.takeWhile isDigitChar = [] →
        (∀ c rest, l = c :: rest → ¬ (c.toNat = 43 ∨ c.toNat = 45)) → b ≠ 43 ∧ b ≠ 45) := by
  obtain ⟨c, t, h1, h2⟩ := exists_first_nondigit l h
  obtain ⟨b, bs, he, hlt, hb, hsign⟩ := utf8Encode_nondigit c h2
  refine ⟨b, bs ++ goBytes t, ?_, hlt, hb, ?_⟩
  · conv_lhs => rw [h1]
    rw [goBytes_digits _ _ (takeWhile_isDigitChar l), goBytes_cons, he]
    simp
  · intro hnil hhead
    rw [hnil, List.nil_append] at h1
    exact hsign (hhead c t h1)

theorem goBytes_all_digits (ds : List Char) (hd : ∀ c ∈ ds, isDigitChar c = true) :
    goBytes ds = ds.map Char.toNat := by
  have h := goBytes_digits ds [] hd
  rw [List.append_nil] at h
  rw [h]
  simp [goBytes]

/-- On a valid decimal integer within the range of `int`, `Atoi` returns its value and no
error. -/
theorem Atoi_decimal (s : String) (hvalid : isDecimalInteger s = true)
    (hlo : - 2 ^ 63 ≤ decimalValue s) (hhi : decimalValue s < 2 ^ 63) :
    Atoi s = (decimalValue s, none) := by
  obtain ⟨cs⟩ := s
  simp only [isDecimalInteger, Bool.and_eq_true, Bool.not_eq_true', List.isEmpty_eq_false,
    List.all_eq_true] at hvalid
  simp only [decimalValue] at hlo hhi ⊢
  simp only [Atoi]
  cases cs with
  | nil => simp [unsignedPart] at hvalid
  | cons c rest =>
    by_cases hs : c.toNat = 43 ∨ c.toNat = 45
    · simp only [unsignedPart, if_pos hs] at hvalid hlo hhi ⊢
      obtain ⟨hne, hd⟩ := hvalid
      obtain ⟨b, bs, he, -, h1, -⟩ := utf8Encode_head c
      obtain ⟨rfl, rfl⟩ := h1 (by omega)
      rw [goBytes_cons, he, goBytes_all_digits rest hd, List.singleton_append]
      rcases hs with h | h
      · have hneg : isNegative (c :: rest) = false := by simp [isNegative, h]
        rw [hneg] at hlo hhi ⊢
        simp only [Bool.false_eq_true, if_false] at hhi ⊢
        rw [h]
        have hhi' : ((digitsValue rest : Nat) : Int) < 2 ^ 63 := hhi
        exact atoiBytes_plus_digits rest hne hd (by exact_mod_cast hhi')
      · have hneg : isNegative (c :: rest) = true := by simp [isNegative, h]
        rw [hneg] at hlo hhi ⊢
        simp only [if_true] at hlo ⊢
        rw [h]
        refine atoiBytes_minus_digits rest hne hd ?_
        have hlo' : - 2 ^ 63 ≤ - ((digitsValue rest : Nat) : Int) := hlo
        have : ((digitsValue rest : Nat) : Int) ≤ 2 ^ 63 := by omega
        exact_mod_cast this
    · simp only [unsignedPart, if_neg hs] at hvalid hlo hhi ⊢
      obtain ⟨hne, hd⟩ := hvalid
      have hneg : isNegative (c :: rest) = false := by
        simp only [isNegative, decide_eq_false_iff_not]; omega
      rw [hneg] at hlo hhi ⊢
      simp only [Bool.false_eq_true, if_false] at hhi ⊢
      rw [goBytes_all_digits (c :: rest) hd]
      have hhi' : ((digitsValue (c :: rest) : Nat) : Int) < 2 ^ 63 := hhi
      exact atoiBytes_digits (c :: rest) hne hd (by exact_mod_cast hhi')

/-- On a text that is not a valid decimal integer, `Atoi` reports a syntax error and returns
zero, provided the digits before the first other character do not overflow `uint64`. -/
theorem Atoi_nondecimal (s : String) (hinv : isDecimalInteger s = false)
    (hv : digitPrefixValue s < 2 ^ 64) : Atoi s = (0, some NumError.errSyntax) := by
  obtain ⟨cs⟩ := s
  simp only [digitPrefixValue] at hv
  simp only [Atoi]
  cases cs with
  | nil => exact atoiBytes_nil
  | cons c rest =>
    by_cases hs : c.toNat = 43 ∨ c.toNat = 45
    · simp only [isDecimalInteger, unsignedPart, if_pos hs] at hinv hv
      obtain ⟨b, bs, he, -, h1, -⟩ := utf8Encode_head c
      obtain ⟨rfl, rfl⟩ := h1 (by omega)
      rw [goBytes_cons, he, List.singleton_append]
      cases hall : rest.all isDigitChar
      · obtain ⟨b, t, hb, hlt, hnd, -⟩ := goBytes_digits_nondigit rest hall
        rw [hb]
        exact atoiBytes_sign_digits_nondigit _ _ b t hs (takeWhile_isDigitChar rest) hlt hnd hv
      · have hnil : rest = [] := by
          cases rest with
          | nil => rfl
          | cons a l => simp [hall] at hinv
        subst hnil
        exact atoiBytes_sign_only _ hs
    · simp only [isDecimalInteger, unsignedPart, if_neg hs] at hinv hv
      have hall : (c :: rest).all isDigitChar = false := by
        simpa using hinv
      obtain ⟨b, t, hb, hlt, hnd, hsign⟩ := goBytes_digits_nondigit (c :: rest) hall
      rw [hb]
      refine atoiBytes_digits_nondigit _ b t (takeWhile_isDigitChar _) hlt hnd ?_ hv
      intro hnil
      refine hsign hnil ?_
      intro c' rest' heq
      obtain ⟨rfl, -⟩ := List.cons.inj heq
      exact hs

/-! ### C10: the volume that `vol-set` sends -/

/-- C10 (as stated, refuted): `99999999999999999999x` is not a valid decimal integer, yet
`vol-set` sends the volume 9223372036854775807 for it, not 0: `Atoi` reports the overflow of
the leading digits before it reaches the `x`. -/
theorem volSet_nondecimal_not_zero :
    isDecimalInteger "99999999999999999999x" = false ∧
      (executeCommand PayloadFlag.empty "vol-set" "99999999999999999999x"
          (startProc "" none)).sent =
        [{ type := "request", id := "req_vol_set", uri := "ssap://audio/setVolume",
           payload := Json.obj [("volume", Json.int 9223372036854775807)], error := "" }] ∧
      Json.int 9223372036854775807 ≠ Json.int 0 := by
  refine ⟨by decide, ?_, by simp⟩
  have h : Atoi "99999999999999999999x" = (9223372036854775807, some NumError.errRange) := by
    decide
  simp only [executeCommand, String.reduceEq, ↓reduceIte, h]
  rfl

/-- C10 (amended): for every argument, `vol-set` does not fail and sends exactly one request,
to `ssap://audio/setVolume` with payload `{"volume": vol}`; `vol` is 0 when the argument is
not a valid decimal integer and the digits before its first other character (after an
optional sign) denote a number below 2^64, and `vol` is `n` when the argument is a valid
decimal integer `n` within the range of `int`. -/
theorem volSet_request (payload : PayloadFlag) (argument : String) (p : Proc) :
    ∃ vol : Int,
      executeCommand payload "vol-set" argument p =
        sendRequest "ssap://audio/setVolume" (Json.obj [("volume", Json.int vol)])
          "req_vol_set" p ∧
      (isDecimalInteger argument = false → digitPrefixValue argument < 2 ^ 64 → vol = 0) ∧
      (isDecimalInteger argument = true → - 2 ^ 63 ≤ decimalValue argument →
        decimalValue argument < 2 ^ 63 → vol = decimalValue argument) := by
  refine ⟨(Atoi argument).1, ?_, ?_, ?_⟩
  · simp only [executeCommand, String.reduceEq, ↓reduceIte]
  · intro h1 h2
    rw [Atoi_nondecimal argument h1 h2]
  · intro h1 h2 h3
    rw [Atoi_decimal argument h1 h2 h3]

/-- C10 (amended), at the arguments `abc` and `-20`. -/
theorem volSet_request_witness :
    (executeCommand PayloadFlag.empty "vol-set" "abc" (startProc "" none)).sent =
        [{ type := "request", id := "req_vol_set", uri := "ssap://audio/setVolume",
           payload := Json.obj [("volume", Json.int 0)], error := "" }] ∧
      (executeCommand PayloadFlag.empty "vol-set" "-20" (startProc "" none)).sent =
        [{ type := "request", id := "req_vol_set", uri := "ssap://audio/setVolume",
           payload := Json.obj [("volume", Json.int (-20))], error := "" }] := by
  constructor
  · obtain ⟨vol, h, h0, -⟩ := volSet_request PayloadFlag.empty "abc" (startProc "" none)
    rw [h, h0 (by decide) (by decide)]
    rfl
  · obtain ⟨vol, h, -, h1⟩ := volSet_request PayloadFlag.empty "-20" (startProc "" none)
    rw [h, h1 (by decide) (by decide) (by decide)]
    rfl



theorem ite_elim {α : Type} (P : α → Prop) (c : Prop) [Decidable c] (a b : α)
    (ha : c → P a) (hb : ¬ c → P b) : P (if c then a else b) := by
  by_cases h : c
  · rw [if_pos h]; exact ha h
  · rw [if_neg h]; exact hb h

theorem doAppAction_frame (payload : PayloadFlag) (command appId : String) (p q : Proc)
    (hq : doAppAction payload command appId p = q) :
    SameStore p q ∧ q.reqContext = p.reqContext := by
  unfold doAppAction at hq
  split at hq
  · split at hq <;> (subst hq; exact ⟨⟨rfl, rfl, rfl, rfl⟩, rfl⟩)
  · split at hq <;> (subst hq; exact ⟨⟨rfl, rfl, rfl, rfl⟩, rfl⟩)

theorem executeCommand_frame (payload : PayloadFlag) (command argument : String) (p : Proc) :
    SameStore p (executeCommand payload command argument p) := by
  have hd : SameStore p (doAppAction payload command argument p) :=
    (doAppAction_frame _ _ _ _ _ rfl).1
  unfold executeCommand
  repeat' first
    | exact hd
    | exact ⟨rfl, rfl, rfl, rfl⟩
    | refine ite_elim (SameStore p) _ _ _ (fun _ => ?_) (fun _ => ?_)


theorem doAppAction_sent (payload : PayloadFlag) (command appId : String) (p p0 : Proc) :
    (doAppAction payload command appId p).sent =
      p.sent ++ (doAppAction payload command appId p0).sent.drop p0.sent.length := by
  unfold doAppAction
  split
  · split <;> simp [sendRequest, logFatal, osExit, logPrint]
  · split <;> simp [sendRequest]

theorem executeCommand_sent (payload : PayloadFlag) (command argument : String) (p : Proc) :
    (executeCommand payload command argument p).sent =
      p.sent ++ initialRequests payload command argument := by
  have hd : (doAppAction payload command argument p).sent =
      p.sent ++ (doAppAction payload command argument (startProc "" none)).sent := by
    have := doAppAction_sent payload command argument p (startProc "" none)
    simpa [startProc] using this
  unfold executeCommand
  repeat' first
    | exact hd.trans (by
        simp only [initialRequests, executeCommand, *, ↓reduceIte, or_true, true_or,
          String.reduceEq, or_self, or_false, false_or, Bool.false_eq_true])
    | (refine ite_elim (fun q : Proc => q.sent = p.sent ++ initialRequests payload command argument)
        _ _ _ (fun _ => ?_) (fun _ => ?_))
  all_goals
    simp only [initialRequests, executeCommand, *, ↓reduceIte, or_true, true_or,
          String.reduceEq, or_self, or_false, false_or]
    simp [osExit, logPrint, logFatal, startProc, sendRequest]

theorem initialRequests_shape (payload : PayloadFlag) (command argument : String) :
    (initialRequests payload command argument).length ≤ 1 ∧
      ∀ m ∈ initialRequests payload command argument, m.type = "request" := by
  have hd : ((doAppAction payload command argument (startProc "" none)).sent).length ≤ 1 ∧
      ∀ m ∈ (doAppAction payload command argument (startProc "" none)).sent,
        m.type = "request" := by
    unfold doAppAction
    split
    · split <;> simp [sendRequest, logFatal, osExit, logPrint, startProc]
    · split <;> simp [sendRequest, startProc]
  unfold initialRequests executeCommand
  repeat' first
    | exact hd
    | (refine ite_elim (fun q : Proc => q.sent.length ≤ 1 ∧ ∀ m ∈ q.sent, m.type = "request")
        _ _ _ (fun _ => ?_) (fun _ => ?_))
  all_goals simp [osExit, logPrint, logFatal, startProc, sendRequest]

theorem adoptClientKey_frame (write : KeyFileWrite) (msgResp : JsonMap) (p : Proc) :
    (adoptClientKey write msgResp p).sent = p.sent ∧
    (adoptClientKey write msgResp p).reqContext = p.reqContext ∧
    (adoptClientKey write msgResp p).stdout = p.stdout ∧
    (adoptClientKey write msgResp p).status = p.status := by
  unfold adoptClientKey
  split
  · split
    · split <;> exact ⟨rfl, rfl, rfl, rfl⟩
    · exact ⟨rfl, rfl, rfl, rfl⟩
  · exact ⟨rfl, rfl, rfl, rfl⟩

theorem handleResponse_reqContext (orbit : FoldTable) (payloadFlag : PayloadFlag)
    (msgID : String) (msgResp : JsonMap) (command argument : String) (p : Proc) :
    (handleResponse orbit payloadFlag msgID msgResp command argument p).reqContext
      = p.reqContext := by
  unfold handleResponse
  simp only []
  repeat' split
  all_goals first
    | rfl
    | exact (doAppAction_frame _ _ _ _ _ rfl).2

theorem doAppAction_other (payload : PayloadFlag) (command appId : String) (p : Proc)
    (h1 : command ≠ "launch") (h2 : command ≠ "close") :
    doAppAction payload command appId p = p := by
  simp only [doAppAction, if_neg h1, if_neg h2]

theorem handleResponse_sent_idle (orbit : FoldTable) (payloadFlag : PayloadFlag)
    (msgID : String) (msgResp : JsonMap) (command argument : String) (p : Proc)
    (hidle : ctxGet p.reqContext "pending_cmd" = "") :
    (handleResponse orbit payloadFlag msgID msgResp command argument p).sent = p.sent := by
  unfold handleResponse
  simp only [hidle]
  repeat' split
  all_goals rfl

/-! ### The reader loop -/

theorem readerStep_registered (orbit : FoldTable) (flags : Flags) (p : Proc)
    (msgResp : JsonMap) (h : isRegistered (Frame.message msgResp) = true) :
    readerStep orbit flags p (Frame.message msgResp) =
      executeCommand flags.payload flags.cmd flags.arg
        (adoptClientKey flags.keyFileWrite msgResp
          (logPrint (LogLine.text "Registered successfully!") p)) := by
  have h' : asString (mapIndex msgResp "type") = "registered" := by
    simpa [isRegistered] using h
  simp only [readerStep, h', if_true]

theorem readerStep_registered_sent (orbit : FoldTable) (flags : Flags) (p : Proc)
    (msgResp : JsonMap) (h : isRegistered (Frame.message msgResp) = true) :
    (readerStep orbit flags p (Frame.message msgResp)).sent =
      p.sent ++ initialRequests flags.payload flags.cmd flags.arg := by
  rw [readerStep_registered orbit flags p msgResp h, executeCommand_sent,
    (adoptClientKey_frame flags.keyFileWrite msgResp _).1]
  rfl

theorem readerStep_other (orbit : FoldTable) (flags : Flags) (p : Proc) (f : Frame)
    (h : isRegistered f = false) (hidle : ctxGet p.reqContext "pending_cmd" = "") :
    (readerStep orbit flags p f).sent = p.sent ∧
      (readerStep orbit flags p f).reqContext = p.reqContext := by
  cases f with
  | readError => exact ⟨rfl, rfl⟩
  | undecodable => exact ⟨rfl, rfl⟩
  | message msgResp =>
    have h' : ¬ asString (mapIndex msgResp "type") = "registered" := by
      simpa [isRegistered] using h
    simp only [readerStep, if_neg h']
    split
    · split
      · exact ⟨handleResponse_sent_idle _ _ _ _ _ _ _ hidle,
          handleResponse_reqContext _ _ _ _ _ _ _⟩
      · exact ⟨rfl, rfl⟩
    · split <;> exact ⟨rfl, rfl⟩

theorem readerLoop_stopped (orbit : FoldTable) (flags : Flags) (p : Proc) (frames : List Frame)
    (h : p.status ≠ Status.running) : readerLoop orbit flags p frames = p := by
  cases frames with
  | nil => rfl
  | cons f fs => simp only [readerLoop, if_neg h]

theorem readerLoop_append (orbit : FoldTable) (flags : Flags) (p : Proc)
    (pre post : List Frame) :
    readerLoop orbit flags p (pre ++ post) =
      readerLoop orbit flags (readerLoop orbit flags p pre) post := by
  induction pre generalizing p with
  | nil => rfl
  | cons f fs ih =>
    by_cases h : p.status = Status.running
    · rw [List.cons_append, readerLoop, if_pos h, readerLoop, if_pos h]
      exact ih _
    · rw [List.cons_append, readerLoop, if_neg h, readerLoop, if_neg h]
      exact (readerLoop_stopped orbit flags p post h).symm

theorem readerLoop_invariant (orbit : FoldTable) (flags : Flags) (I : Proc → Prop)
    (frames : List Frame)
    (hstep : ∀ p, ∀ f ∈ frames, I p → I (readerStep orbit flags p f)) (p : Proc) (h0 : I p) :
    I (readerLoop orbit flags p frames) := by
  induction frames generalizing p with
  | nil => exact h0
  | cons f fs ih =>
    by_cases h : p.status = Status.running
    · simp only [readerLoop, if_pos h]
      exact ih (fun q g hg hq => hstep q g (List.mem_cons_of_mem _ hg) hq) _
        (hstep p f (List.mem_cons_self _ _) h0)
    · simp only [readerLoop, if_neg h]
      exact h0

/-! ### C6: the initial request and the `registered` messages -/

/-- C6 (as stated, refuted): with `vol-up`, a second `registered` message makes the reader
emit the initial request a second time. -/
theorem second_registered_emits_again :
    (readerLoop asciiOnly { cmd := "vol-up", arg := "", payload := PayloadFlag.empty }
        (startProc "" none) [registeredFrame, registeredFrame]).sent =
      [{ type := "request", id := "req_vol_up", uri := "ssap://audio/volumeUp",
         payload := Json.null, error := "" },
       { type := "request", id := "req_vol_up", uri := "ssap://audio/volumeUp",
         payload := Json.null, error := "" }] := by
  rfl

/-- C6 (amended): for every sequence of inbound messages, nothing is sent before the first
`registered` message; every `registered` message that the reader processes, the first and
any further one alike, makes it run the dispatcher once, which appends the requests the flags
determine: at most one message, of type `request`. -/
theorem initial_request_per_registered (orbit : FoldTable) (flags : Flags) :
    (∀ (clientKey : String) (keyFile : Option String) (frames : List Frame),
      (∀ f ∈ frames, isRegistered f = false) →
        (readerLoop orbit flags (startProc clientKey keyFile) frames).sent = []) ∧
    (∀ (p : Proc) (msgResp : JsonMap), isRegistered (Frame.message msgResp) = true →
      (readerStep orbit flags p (Frame.message msgResp)).sent =
        p.sent ++ initialRequests flags.payload flags.cmd flags.arg) ∧
    (initialRequests flags.payload flags.cmd flags.arg).length ≤ 1 ∧
    (∀ m ∈ initialRequests flags.payload flags.cmd flags.arg, m.type = "request") := by
  refine ⟨?_, ?_, (initialRequests_shape _ _ _).1, (initialRequests_shape _ _ _).2⟩
  · intro clientKey keyFile frames hno
    have hI := readerLoop_invariant orbit flags
      (fun p => p.sent = [] ∧ ctxGet p.reqContext "pending_cmd" = "") frames
      (fun p f hf hp => by
        obtain ⟨h1, h2⟩ := readerStep_other orbit flags p f (hno f hf) hp.2
        exact ⟨h1.trans hp.1, by rw [h2]; exact hp.2⟩)
      (startProc clientKey keyFile) ⟨rfl, rfl⟩
    exact hI.1
  · intro p msgResp h
    exact readerStep_registered_sent orbit flags p msgResp h

/-- C6 (amended), at `vol-up`: an undecodable text and an unrelated response send nothing,
and a `registered` message appends the initial request. -/
theorem initial_request_per_registered_witness :
    (readerLoop asciiOnly { cmd := "vol-up", arg := "", payload := PayloadFlag.empty }
        (startProc "" none) [Frame.undecodable, responseFrame "other" Json.null]).sent = [] ∧
    (readerStep asciiOnly { cmd := "vol-up", arg := "", payload := PayloadFlag.empty }
        (startProc "" none) (Frame.message [("type", Json.str "registered")])).sent =
      (startProc "" none).sent ++ initialRequests PayloadFlag.empty "vol-up" "" :=
  ⟨(initial_request_per_registered asciiOnly
      { cmd := "vol-up", arg := "", payload := PayloadFlag.empty }).1 "" none
      [Frame.undecodable, responseFrame "other" Json.null] (by decide),
   (initial_request_per_registered asciiOnly
      { cmd := "vol-up", arg := "", payload := PayloadFlag.empty }).2.1 (startProc "" none)
      [("type", Json.str "registered")] rfl⟩

/-! ### C5: validation errors -/

theorem executeCommand_validationError (flags : Flags) (hv : validationError flags)
    (p : Proc) :
    (executeCommand flags.payload flags.cmd flags.arg p).status = Status.exited 1 ∧
    (executeCommand flags.payload flags.cmd flags.arg p).sent = p.sent ∧
    (executeCommand flags.payload flags.cmd flags.arg p).reqContext = p.reqContext := by
  obtain ⟨cmd, arg, payload, keyFileWrite⟩ := flags
  simp only [validationError] at hv
  rcases hv with ⟨hc | hc, ha⟩ | ⟨hc, hp, hn⟩ | hc
  · subst hc ha
    simp only [executeCommand, String.reduceEq, ↓reduceIte, or_self]
    exact ⟨rfl, rfl, rfl⟩
  · subst hc ha
    simp only [executeCommand, String.reduceEq, ↓reduceIte, or_self]
    exact ⟨rfl, rfl, rfl⟩
  · subst hc hp
    rw [executeCommand_launch, hn]
    exact ⟨rfl, rfl, rfl⟩
  · simp only [fixedCommands, List.mem_cons, List.mem_singleton, List.not_mem_nil, or_false,
      not_or] at hc
    simp only [executeCommand, hc, ↓reduceIte, or_self]
    exact ⟨rfl, rfl, rfl⟩

/-- C5 (as stated, refuted): `launch` of the name `youtube` with an invalid `-payload` is a
validation error, yet the app-listing request is sent to the device before the run ends
fatally on the resolved name. -/
theorem invalid_payload_sends_listing_first :
    (readerLoop asciiOnly { cmd := "launch", arg := "youtube", payload := PayloadFlag.invalid }
        (startProc "" none)
        [registeredFrame,
         responseFrame "req_resolve_app"
           (Json.obj [("apps", Json.arr [Json.obj [("title", Json.str "YouTube"),
                                                   ("id", Json.str "youtube.leanback.v4")]])])]
      ).status = Status.exited 1 ∧
    (readerLoop asciiOnly { cmd := "launch", arg := "youtube", payload := PayloadFlag.invalid }
        (startProc "" none)
        [registeredFrame,
         responseFrame "req_resolve_app"
           (Json.obj [("apps", Json.arr [Json.obj [("title", Json.str "YouTube"),
                                                   ("id", Json.str "youtube.leanback.v4")]])])]
      ).sent = [resolveRequest] := by
  constructor <;> rfl

/-- C5 (amended): for `toast` or `set-input` with an empty argument, for a command name
outside the fixed set, and for `launch` with an invalid `-payload` and an argument that is
empty or contains a dot, no message is sent to the device whatever the inbound messages are,
and the first `registered` message that the reader processes ends the run with exit
status 1. -/
theorem validation_error_sends_nothing (orbit : FoldTable) (flags : Flags)
    (hv : validationError flags) (clientKey : String) (keyFile : Option String) :
    (∀ frames : List Frame,
      (readerLoop orbit flags (startProc clientKey keyFile) frames).sent = []) ∧
    (∀ (pre post : List Frame) (msgResp : JsonMap),
      (readerLoop orbit flags (startProc clientKey keyFile) pre).status = Status.running →
      isRegistered (Frame.message msgResp) = true →
      (readerLoop orbit flags (startProc clientKey keyFile)
        (pre ++ Frame.message msgResp :: post)).status = Status.exited 1) := by
  constructor
  · intro frames
    have hI := readerLoop_invariant orbit flags
      (fun p => p.sent = [] ∧ ctxGet p.reqContext "pending_cmd" = "") frames
      (fun p f _ hp => by
        cases hr : isRegistered f
        · obtain ⟨h1, h2⟩ := readerStep_other orbit flags p f hr hp.2
          exact ⟨h1.trans hp.1, by rw [h2]; exact hp.2⟩
        · cases f with
          | readError => simp [isRegistered] at hr
          | undecodable => simp [isRegistered] at hr
          | message msgResp =>
            rw [readerStep_registered orbit flags p msgResp hr]
            obtain ⟨-, h1, h2⟩ := executeCommand_validationError flags hv
              (adoptClientKey flags.keyFileWrite msgResp
                (logPrint (LogLine.text "Registered successfully!") p))
            obtain ⟨a1, a2, -, -⟩ := adoptClientKey_frame flags.keyFileWrite msgResp
              (logPrint (LogLine.text "Registered successfully!") p)
            exact ⟨by rw [h1, a1]; exact hp.1, by rw [h2, a2]; exact hp.2⟩)
      (startProc clientKey keyFile) ⟨rfl, rfl⟩
    exact hI.1
  · intro pre post msgResp hrun hreg
    rw [readerLoop_append, readerLoop, if_pos hrun,
      readerStep_registered orbit flags _ msgResp hreg]
    have hs := (executeCommand_validationError flags hv
      (adoptClientKey flags.keyFileWrite msgResp
        (logPrint (LogLine.text "Registered successfully!")
          (readerLoop orbit flags (startProc clientKey keyFile) pre)))).1
    rw [readerLoop_stopped _ _ _ _ (by rw [hs]; exact fun h => nomatch h)]
    exact hs

/-- C5 (amended), at `toast` without argument and the single inbound message
`{"type": "registered"}`. -/
theorem validation_error_sends_nothing_witness :
    (readerLoop asciiOnly { cmd := "toast", arg := "", payload := PayloadFlag.empty }
        (startProc "" none) ([] ++ Frame.message [("type", Json.str "registered")] :: [])
      ).status = Status.exited 1 :=
  (validation_error_sends_nothing asciiOnly
      { cmd := "toast", arg := "", payload := PayloadFlag.empty }
      (Or.inl ⟨Or.inl rfl, rfl⟩) "" none).2 [] [] [("type", Json.str "registered")] rfl rfl

/-! ### C7: adoption of the offered client key -/

theorem adoptClientKey_new (write : KeyFileWrite) (msgResp : JsonMap) (p : Proc) (k : String)
    (ho : offeredKey msgResp = some k) (hk : k ≠ p.clientKey) :
    (adoptClientKey write msgResp p).clientKey = k ∧
    (adoptClientKey write msgResp p).keyFile = write p.keyFile k ∧
    (adoptClientKey write msgResp p).fileWrites = p.fileWrites ++ [k] := by
  unfold offeredKey at ho
  unfold adoptClientKey
  cases h1 : mapIndex msgResp "payload" with
  | obj fields =>
    simp only [h1] at ho ⊢
    cases h2 : mapIndex fields "client-key" with
    | str s =>
      simp only [h2, Option.some.injEq] at ho ⊢
      subst ho
      have : (s != p.clientKey) = true := by simpa using hk
      simp only [this, if_true]
      exact ⟨rfl, rfl, rfl⟩
    | _ => simp [h2] at ho
  | _ => simp [h1] at ho

theorem adoptClientKey_same (write : KeyFileWrite) (msgResp : JsonMap) (p : Proc)
    (ho : offeredKey msgResp = none ∨ offeredKey msgResp = some p.clientKey) :
    adoptClientKey write msgResp p = p := by
  unfold offeredKey at ho
  unfold adoptClientKey
  cases h1 : mapIndex msgResp "payload" with
  | obj fields =>
    simp only [h1] at ho ⊢
    cases h2 : mapIndex fields "client-key" with
    | str s =>
      simp only [h2, Option.some.injEq] at ho ⊢
      have hs : s = p.clientKey := by
        rcases ho with ho | ho
        · exact absurd ho (by simp)
        · exact ho
      have : (s != p.clientKey) = false := by simp [hs]
      simp only [this]
      rfl
    | _ => rfl
  | _ => rfl

theorem readerStep_registered_store (orbit : FoldTable) (flags : Flags) (p : Proc)
    (msgResp : JsonMap) (h : isRegistered (Frame.message msgResp) = true) :
    SameStore
      (adoptClientKey flags.keyFileWrite msgResp
        (logPrint (LogLine.text "Registered successfully!") p))
      (readerStep orbit flags p (Frame.message msgResp)) := by
  rw [readerStep_registered orbit flags p msgResp h]
  exact executeCommand_frame _ _ _ _

/-- C7 (as stated, refuted): the key file cannot be written; the `registered` message offers
the client key `new` while the credential is `old`. Afterwards the in-memory credential is
`new`, but the key file still holds `old`: the error of `ioutil.WriteFile` is discarded and
the run goes on. -/
theorem failed_write_leaves_old_key :
    (readerStep asciiOnly
        { cmd := "info", arg := "", payload := PayloadFlag.empty, keyFileWrite := writeDenied }
        (startProc "old" (some "old"))
        (Frame.message [("type", Json.str "registered"),
          ("payload", Json.obj [("client-key", Json.str "new")])])).clientKey = "new" ∧
    (readerStep asciiOnly
        { cmd := "info", arg := "", payload := PayloadFlag.empty, keyFileWrite := writeDenied }
        (startProc "old" (some "old"))
        (Frame.message [("type", Json.str "registered"),
          ("payload", Json.obj [("client-key", Json.str "new")])])).keyFile = some "old" ∧
    (readerStep asciiOnly
        { cmd := "info", arg := "", payload := PayloadFlag.empty, keyFileWrite := writeDenied }
        (startProc "old" (some "old"))
        (Frame.message [("type", Json.str "registered"),
          ("payload", Json.obj [("client-key", Json.str "new")])])).keyFile ≠ some "new" ∧
    (readerStep asciiOnly
        { cmd := "info", arg := "", payload := PayloadFlag.empty, keyFileWrite := writeDenied }
        (startProc "old" (some "old"))
        (Frame.message [("type", Json.str "registered"),
          ("payload", Json.obj [("client-key", Json.str "new")])])).status = Status.running := by
  refine ⟨rfl, rfl, ?_, rfl⟩
  intro h
  exact absurd (Option.some.inj h) (by decide)

/-- C7 (amended): when a `registered` message is processed with current credential `k`, an
offered string client key `k'` that differs from `k` becomes the in-memory credential and is
handed to `ioutil.WriteFile` once; the key file then holds what that call leaves in it, which
is `k'` whenever the write succeeds. When `k'` equals `k`, or no string client key is
offered, the in-memory credential stays, the key file stays and nothing is written; and
processing the same message once more changes neither the credential nor the key file, and
writes nothing. -/
theorem registered_credential (orbit : FoldTable) (flags : Flags) (p : Proc)
    (msgResp : JsonMap) (hreg : isRegistered (Frame.message msgResp) = true) :
    (∀ k', offeredKey msgResp = some k' → k' ≠ p.clientKey →
      (readerStep orbit flags p (Frame.message msgResp)).clientKey = k' ∧
      (readerStep orbit flags p (Frame.message msgResp)).fileWrites = p.fileWrites ++ [k'] ∧
      (readerStep orbit flags p (Frame.message msgResp)).keyFile
        = flags.keyFileWrite p.keyFile k' ∧
      (flags.keyFileWrite p.keyFile k' = some k' →
        (readerStep orbit flags p (Frame.message msgResp)).keyFile = some k')) ∧
    ((offeredKey msgResp = none ∨ offeredKey msgResp = some p.clientKey) →
      (readerStep orbit flags p (Frame.message msgResp)).clientKey = p.clientKey ∧
      (readerStep orbit flags p (Frame.message msgResp)).keyFile = p.keyFile ∧
      (readerStep orbit flags p (Frame.message msgResp)).fileWrites = p.fileWrites) ∧
    SameStore (readerStep orbit flags p (Frame.message msgResp))
      (readerStep orbit flags (readerStep orbit flags p (Frame.message msgResp))
        (Frame.message msgResp)) := by
  have hstore := readerStep_registered_store orbit flags p msgResp hreg
  have hnew : ∀ k', offeredKey msgResp = some k' → k' ≠ p.clientKey →
      (readerStep orbit flags p (Frame.message msgResp)).clientKey = k' ∧
      (readerStep orbit flags p (Frame.message msgResp)).fileWrites = p.fileWrites ++ [k'] ∧
      (readerStep orbit flags p (Frame.message msgResp)).keyFile
        = flags.keyFileWrite p.keyFile k' := by
    intro k' ho hk
    obtain ⟨a1, a2, a3⟩ := adoptClientKey_new flags.keyFileWrite msgResp
      (logPrint (LogLine.text "Registered successfully!") p) k' ho hk
    exact ⟨hstore.1.trans a1, hstore.2.2.1.trans a3, hstore.2.1.trans a2⟩
  have hsame : ∀ q : Proc, (offeredKey msgResp = none ∨ offeredKey msgResp = some q.clientKey) →
      (readerStep orbit flags q (Frame.message msgResp)).clientKey = q.clientKey ∧
      (readerStep orbit flags q (Frame.message msgResp)).keyFile = q.keyFile ∧
      (readerStep orbit flags q (Frame.message msgResp)).fileWrites = q.fileWrites ∧
      (readerStep orbit flags q (Frame.message msgResp)).stdout = q.stdout := by
    intro q ho
    have hs := readerStep_registered_store orbit flags q msgResp hreg
    have ha := adoptClientKey_same flags.keyFileWrite msgResp
      (logPrint (LogLine.text "Registered successfully!") q) ho
    rw [ha] at hs
    exact ⟨hs.1, hs.2.1, hs.2.2.1, hs.2.2.2⟩
  refine ⟨fun k' ho hk => ?_,
    fun ho => ⟨(hsame p ho).1, (hsame p ho).2.1, (hsame p ho).2.2.1⟩, ?_⟩
  · obtain ⟨h1, h2, h3⟩ := hnew k' ho hk
    exact ⟨h1, h2, h3, fun hw => h3.trans hw⟩
  · apply hsame
    cases ho : offeredKey msgResp with
    | none => exact Or.inl rfl
    | some k' =>
      right
      by_cases hk : k' = p.clientKey
      · rw [(hsame p (Or.inr (by rw [ho, hk]))).1, hk]
      · rw [(hnew k' ho hk).1]

/-- C7 (amended), at the current credential `old`, the offer of `new` and a key file that
takes the write: both the credential and the key file become `new`. -/
theorem registered_credential_witness :
    (readerStep asciiOnly { cmd := "info", arg := "", payload := PayloadFlag.empty }
        (startProc "old" (some "old"))
        (Frame.message [("type", Json.str "registered"),
          ("payload", Json.obj [("client-key", Json.str "new")])])).clientKey = "new" ∧
    (readerStep asciiOnly { cmd := "info", arg := "", payload := PayloadFlag.empty }
        (startProc "old" (some "old"))
        (Frame.message [("type", Json.str "registered"),
          ("payload", Json.obj [("client-key", Json.str "new")])])).fileWrites
      = (startProc "old" (some "old")).fileWrites ++ ["new"] ∧
    (readerStep asciiOnly { cmd := "info", arg := "", payload := PayloadFlag.empty }
        (startProc "old" (some "old"))
        (Frame.message [("type", Json.str "registered"),
          ("payload", Json.obj [("client-key", Json.str "new")])])).keyFile = some "new" := by
  obtain ⟨h1, h2, -, h4⟩ :=
    (registered_credential asciiOnly
      { cmd := "info", arg := "", payload := PayloadFlag.empty }
      (startProc "old" (some "old"))
      [("type", Json.str "registered"), ("payload", Json.obj [("client-key", Json.str "new")])]
      rfl).1 "new" rfl (by decide)
  exact ⟨h1, h2, h4 rfl⟩

/-! ### The correlation ids of the requests of a run -/

theorem sendRequest_coherent (command uri id : String) (payload : Json) (p : Proc)
    (hp : Coherent command p) (hid : okId command id) :
    Coherent command (sendRequest uri payload id p) := by
  refine ⟨fun m hm => ?_, hp.2⟩
  simp only [sendRequest, List.mem_append, List.mem_singleton] at hm
  rcases hm with hm | rfl
  · exact hp.1 m hm
  · exact hid

theorem doAppAction_coherent (payload : PayloadFlag) (command appId : String) (p : Proc)
    (hp : Coherent command p) : Coherent command (doAppAction payload command appId p) := by
  unfold doAppAction
  refine ite_elim (Coherent command) _ _ _ (fun h => ?_) (fun _ => ?_)
  · subst h
    have hid : okId "launch" "req_launch" := by unfold okId; decide
    cases payload with
    | empty => exact sendRequest_coherent _ _ _ _ _ hp hid
    | invalid => exact hp
    | params m => exact sendRequest_coherent _ _ _ _ _ hp hid
  · refine ite_elim (Coherent command) _ _ _ (fun h => ?_) (fun _ => ?_)
    · subst h
      exact sendRequest_coherent _ _ _ _ _ hp (by unfold okId; decide)
    · exact hp

theorem ctxGet_pending_cmd (ctx : List (String × String)) (command argument : String) :
    ctxGet (ctxSet (ctxSet ctx "pending_cmd" command) "pending_arg" argument) "pending_cmd"
      = command := by
  simp [ctxGet, ctxSet, List.lookup]

theorem executeCommand_coherent (payload : PayloadFlag) (command argument : String) (p : Proc)
    (hp : Coherent command p) : Coherent command (executeCommand payload command argument p) := by
  have hd := doAppAction_coherent payload command argument p hp
  have hr : Coherent command
      (sendRequest "ssap://com.webos.applicationManager/listApps" Json.null "req_resolve_app"
        { p with reqContext :=
            ctxSet (ctxSet p.reqContext "pending_cmd" command) "pending_arg" argument }) :=
    sendRequest_coherent _ _ _ _ _ ⟨hp.1, Or.inr (ctxGet_pending_cmd _ _ _)⟩ (Or.inl rfl)
  unfold executeCommand
  repeat' first
    | exact hd
    | exact hr
    | exact hp
    | refine ite_elim (Coherent command) _ _ _ (fun h => ?_) (fun h => ?_)
  all_goals
    subst_vars
    exact sendRequest_coherent _ _ _ _ _ hp (by unfold okId; decide)

theorem handleResponse_coherent (orbit : FoldTable) (payloadFlag : PayloadFlag)
    (msgID : String) (msgResp : JsonMap) (command argument : String) (p : Proc)
    (hp : Coherent command p) :
    Coherent command (handleResponse orbit payloadFlag msgID msgResp command argument p) := by
  unfold handleResponse
  simp only []
  repeat' split
  all_goals first
    | exact hp
    | (rcases hp.2 with h | h
       · rw [h, doAppAction_other _ _ _ _ (by decide) (by decide)]
         exact hp
       · rw [h]
         exact doAppAction_coherent _ _ _ _ hp)

theorem readerStep_coherent (orbit : FoldTable) (flags : Flags) (p : Proc) (f : Frame)
    (hp : Coherent flags.cmd p) : Coherent flags.cmd (readerStep orbit flags p f) := by
  cases f with
  | readError => exact hp
  | undecodable => exact hp
  | message msgResp =>
    unfold readerStep
    simp only []
    split
    · refine executeCommand_coherent _ _ _ _ ?_
      obtain ⟨a1, a2, -, -⟩ := adoptClientKey_frame flags.keyFileWrite msgResp
        (logPrint (LogLine.text "Registered successfully!") p)
      exact ⟨by rw [a1]; exact hp.1, by rw [a2]; exact hp.2⟩
    · split
      · split
        · exact handleResponse_coherent _ _ _ _ _ _ _ hp
        · exact hp
      · split <;> exact hp

theorem readerLoop_coherent (orbit : FoldTable) (flags : Flags) (clientKey : String)
    (keyFile : Option String) (frames : List Frame) :
    Coherent flags.cmd (readerLoop orbit flags (startProc clientKey keyFile) frames) :=
  readerLoop_invariant orbit flags (Coherent flags.cmd) frames
    (fun p f _ hp => readerStep_coherent orbit flags p f hp) _
    ⟨fun _ hm => (nomatch hm), Or.inl rfl⟩

/-! ### C9 and C8: what a response prints -/

theorem handleResponse_other (orbit : FoldTable) (payloadFlag : PayloadFlag)
    (msgID : String) (msgResp : JsonMap) (command argument : String) (p : Proc)
    (h : msgID ≠ "req_resolve_app") :
    handleResponse orbit payloadFlag msgID msgResp command argument p =
      if isQueryId msgID then
        osExit 0 { p with stdout := p.stdout ++ [mapIndex msgResp "payload"] }
      else
        osExit 0
          (logPrint (LogLine.text ("Command " ++ command ++ " request sent/acknowledged.")) p)
      := by
  unfold handleResponse isQueryId
  simp only [if_neg h]

theorem readerStep_response (orbit : FoldTable) (flags : Flags) (p : Proc) (msgResp : JsonMap)
    (hresp : asString (mapIndex msgResp "type") = "response") :
    readerStep orbit flags p (Frame.message msgResp) =
      if stringsHasPrefix (asString (mapIndex msgResp "id")) "req_" then
        handleResponse orbit flags.payload (asString (mapIndex msgResp "id")) msgResp
          flags.cmd flags.arg p
      else p := by
  simp only [readerStep, hresp, String.reduceEq, if_false, if_true]

/-- C9: a response that echoes the id of a request sent in a run for the command, other than
the app-resolution request, is not ignored (the id starts with `req_`), ends the process
with status 0, and has its payload written to standard output, with nothing logged, exactly
when the command is one of `info`, `list-apps`, `list-inputs`, `vol-get`, `chan-get`; for
every other command nothing is written and the acknowledgment is logged. -/
theorem response_to_own_request (orbit : FoldTable) (flags : Flags) (clientKey : String)
    (keyFile : Option String) (frames : List Frame) (m : Message)
    (hm : m ∈ (readerLoop orbit flags (startProc clientKey keyFile) frames).sent)
    (hne : m.id ≠ "req_resolve_app") (p : Proc) (msgResp : JsonMap)
    (hresp : asString (mapIndex msgResp "type") = "response")
    (hid : asString (mapIndex msgResp "id") = m.id) :
    stringsHasPrefix m.id "req_" = true ∧
    (readerStep orbit flags p (Frame.message msgResp)).status = Status.exited 0 ∧
    (flags.cmd ∈ queryCommands →
      (readerStep orbit flags p (Frame.message msgResp)).stdout
        = p.stdout ++ [mapIndex msgResp "payload"] ∧
      (readerStep orbit flags p (Frame.message msgResp)).log = p.log) ∧
    (flags.cmd ∉ queryCommands →
      (readerStep orbit flags p (Frame.message msgResp)).stdout = p.stdout ∧
      (readerStep orbit flags p (Frame.message msgResp)).log = p.log ++
        [LogLine.text ("Command " ++ flags.cmd ++ " request sent/acknowledged.")]) := by
  have hok := (readerLoop_coherent orbit flags clientKey keyFile frames).1 m hm
  rcases hok with hok | ⟨hpre, hq⟩
  · exact absurd hok hne
  · refine ⟨hpre, ?_⟩
    rw [readerStep_response orbit flags p msgResp hresp, hid, hpre, if_pos rfl,
      handleResponse_other _ _ _ _ _ _ _ hne]
    refine ⟨?_, ?_, ?_⟩
    · split <;> rfl
    · intro hc
      rw [if_pos (hq.2 hc)]
      exact ⟨rfl, rfl⟩
    · intro hc
      have : ¬ isQueryId m.id = true := fun h => hc (hq.1 h)
      rw [if_neg this]
      exact ⟨rfl, rfl⟩

/-- C9, at the command `info` and the response to its request `req_info`. -/
theorem response_to_own_request_witness :
    stringsHasPrefix "req_info" "req_" = true ∧
    (readerStep asciiOnly { cmd := "info", arg := "", payload := PayloadFlag.empty }
        (startProc "" none)
        (Frame.message [("type", Json.str "response"), ("id", Json.str "req_info"),
          ("payload", Json.obj [("modelName", Json.str "OLED")])])).status
      = Status.exited 0 ∧
    (readerStep asciiOnly { cmd := "info", arg := "", payload := PayloadFlag.empty }
        (startProc "" none)
        (Frame.message [("type", Json.str "response"), ("id", Json.str "req_info"),
          ("payload", Json.obj [("modelName", Json.str "OLED")])])).stdout
      = (startProc "" none).stdout ++ [Json.obj [("modelName", Json.str "OLED")]] := by
  obtain ⟨h1, h2, h3, -⟩ := response_to_own_request asciiOnly
    { cmd := "info", arg := "", payload := PayloadFlag.empty } "" none [registeredFrame]
    { type := "request", id := "req_info", uri := "ssap://system/getSystemInfo",
      payload := Json.null, error := "" }
    (List.mem_cons_self _ _) (by decide) (startProc "" none)
    [("type", Json.str "response"), ("id", Json.str "req_info"),
      ("payload", Json.obj [("modelName", Json.str "OLED")])] rfl rfl
  exact ⟨h1, h2, (h3 (by decide)).1⟩

/-- C8 (as stated, refuted): with the command `toast`, which is not query-style, a response
whose id is `req_info` has its payload written to standard output. -/
theorem toast_prints_query_response :
    "toast" ∉ queryCommands ∧
    (readerStep asciiOnly { cmd := "toast", arg := "Hello World", payload := PayloadFlag.empty }
        (startProc "" none) (responseFrame "req_info" (Json.str "x"))).stdout
      = [Json.str "x"] := by
  refine ⟨by decide, rfl⟩

/-- C8 (amended): for every command, so for every command that is not query-style, every
argument and every inbound `response` message whose id neither ends in `_get` nor is one of
`req_info`, `req_list_apps`, `req_list_inputs`, handling the response writes nothing to
standard output; and when the command is not query-style, no request sent in a run for it
carries such a printing id. -/
theorem response_stdout (orbit : FoldTable) (flags : Flags) :
    (∀ (p : Proc) (msgResp : JsonMap),
      asString (mapIndex msgResp "type") = "response" →
      isQueryId (asString (mapIndex msgResp "id")) = false →
      (readerStep orbit flags p (Frame.message msgResp)).stdout = p.stdout) ∧
    (flags.cmd ∉ queryCommands →
      ∀ (clientKey : String) (keyFile : Option String) (frames : List Frame),
        ∀ m ∈ (readerLoop orbit flags (startProc clientKey keyFile) frames).sent,
          isQueryId m.id = false) := by
  constructor
  · intro p msgResp hresp hid
    rw [readerStep_response orbit flags p msgResp hresp]
    split
    · by_cases hr : asString (mapIndex msgResp "id") = "req_resolve_app"
      · rw [hr]
        unfold handleResponse
        simp only [if_true]
        repeat' split
        all_goals first
          | rfl
          | exact (doAppAction_frame _ _ _ _ _ rfl).1.2.2.2
      · rw [handleResponse_other _ _ _ _ _ _ _ hr, hid]
        rfl
    · rfl
  · intro hc clientKey keyFile frames m hm
    have hok := (readerLoop_coherent orbit flags clientKey keyFile frames).1 m hm
    rcases hok with hok | ⟨-, hq⟩
    · rw [hok]; decide
    · cases h : isQueryId m.id
      · rfl
      · exact absurd (hq.1 h) hc

/-- C8 (amended), at `toast` and the response to its own request `req_toast`. -/
theorem response_stdout_witness :
    (readerStep asciiOnly { cmd := "toast", arg := "Hello World", payload := PayloadFlag.empty }
        (startProc "" none)
        (Frame.message [("type", Json.str "response"), ("id", Json.str "req_toast"),
          ("payload", Json.obj [("returnValue", Json.bool true)])])).stdout
      = (startProc "" none).stdout :=
  (response_stdout asciiOnly
      { cmd := "toast", arg := "Hello World", payload := PayloadFlag.empty }).1
    (startProc "" none)
    [("type", Json.str "response"), ("id", Json.str "req_toast"),
      ("payload", Json.obj [("returnValue", Json.bool true)])] rfl rfl

/-! ### C2 and C3: resolution of an app name -/

theorem scanApps_first (orbit : FoldTable) (pendingArg : String) (pre post : List Json)
    (appMap : JsonMap)
    (hpre : ∀ a ∈ pre, ∃ am, a = Json.obj am ∧ entryMatches orbit pendingArg am = false)
    (hmatch : entryMatches orbit pendingArg appMap = true) :
    scanApps orbit pendingArg (pre ++ Json.obj appMap :: post) =
      Scan.found (asString (mapIndex appMap "id")) := by
  induction pre with
  | nil =>
    unfold entryMatches at hmatch
    simp only [List.nil_append, scanApps, hmatch, if_true]
  | cons a rest ih =>
    obtain ⟨am, rfl, hno⟩ := hpre a (List.mem_cons_self _ _)
    unfold entryMatches at hno
    simp only [List.cons_append, scanApps, hno, Bool.false_eq_true, if_false]
    exact ih (fun b hb => hpre b (List.mem_cons_of_mem _ hb))

/-- C2 (as stated, refuted): the first entry whose title equals the pending argument up to
case has the empty id; `handleResponse` then ends the process with status 1 and dispatches
no action request, neither for that entry nor for the matching entry after it. -/
theorem first_match_with_empty_id_fails :
    entryMatches asciiOnly "youtube" [("title", Json.str "YouTube"), ("id", Json.str "")]
      = true ∧
    (readerLoop asciiOnly { cmd := "launch", arg := "youtube", payload := PayloadFlag.empty }
        (startProc "" none)
        [registeredFrame,
         responseFrame "req_resolve_app"
           (Json.obj [("apps", Json.arr
             [Json.obj [("title", Json.str "YouTube"), ("id", Json.str "")],
              Json.obj [("title", Json.str "youtube"),
                        ("id", Json.str "youtube.leanback.v4")]])])]).status
      = Status.exited 1 ∧
    (readerLoop asciiOnly { cmd := "launch", arg := "youtube", payload := PayloadFlag.empty }
        (startProc "" none)
        [registeredFrame,
         responseFrame "req_resolve_app"
           (Json.obj [("apps", Json.arr
             [Json.obj [("title", Json.str "YouTube"), ("id", Json.str "")],
              Json.obj [("title", Json.str "youtube"),
                        ("id", Json.str "youtube.leanback.v4")]])])]).sent
      = [resolveRequest] := by
  refine ⟨by decide, ?_, ?_⟩ <;> rfl

/-- C2 (amended): when the pending command is `launch` or `close` and the response
`req_resolve_app` carries an app list whose first entry matching the pending argument (by
title or id, up to case) has a non-empty id, every element before it being an entry that
does not match, `handleResponse` dispatches exactly one request, the deferred action with
payload id equal to the id of that first entry, and the process keeps running; for `launch`
this holds provided the flag `-payload` is not invalid. -/
theorem resolve_first_match (orbit : FoldTable) (payloadFlag : PayloadFlag)
    (msgResp : JsonMap) (command argument : String) (p : Proc) (fields : JsonMap)
    (pre post : List Json) (appMap : JsonMap)
    (hcmd : ctxGet p.reqContext "pending_cmd" = "launch" ∨
      ctxGet p.reqContext "pending_cmd" = "close")
    (hpayload : mapIndex msgResp "payload" = Json.obj fields)
    (happs : mapIndex fields "apps" = Json.arr (pre ++ Json.obj appMap :: post))
    (hpre : ∀ a ∈ pre, ∃ am, a = Json.obj am ∧
      entryMatches orbit (ctxGet p.reqContext "pending_arg") am = false)
    (hmatch : entryMatches orbit (ctxGet p.reqContext "pending_arg") appMap = true)
    (hid : asString (mapIndex appMap "id") ≠ "")
    (hflag : ¬ (ctxGet p.reqContext "pending_cmd" = "launch" ∧
      payloadFlag = PayloadFlag.invalid)) :
    ∃ m, (handleResponse orbit payloadFlag "req_resolve_app" msgResp command argument p).sent
        = p.sent ++ [m] ∧
      m.type = "request" ∧
      m.uri = endpointOf (ctxGet p.reqContext "pending_cmd") ∧
      payloadField m.payload "id" = Json.str (asString (mapIndex appMap "id")) ∧
      (handleResponse orbit payloadFlag "req_resolve_app" msgResp command argument p).status
        = p.status := by
  have hscan := scanApps_first orbit _ pre post appMap hpre hmatch
  have hid' : (asString (mapIndex appMap "id") != "") = true := by simpa using hid
  unfold handleResponse
  simp only [if_true, hpayload, happs, hscan, hid']
  rcases hcmd with hc | hc
  · rw [hc] at hflag ⊢
    cases payloadFlag with
    | invalid => exact absurd ⟨rfl, rfl⟩ hflag
    | empty => exact ⟨_, rfl, rfl, by simp [endpointOf], by simp [payloadField, mapIndex], rfl⟩
    | params m =>
      exact ⟨_, rfl, rfl, by simp [endpointOf], by simp [payloadField, mapIndex], rfl⟩
  · rw [hc]
    exact ⟨_, rfl, rfl, by simp [endpointOf], by simp [payloadField, mapIndex], rfl⟩

/-- C2 (amended), at the list of `YouTube` and `Youtube Kids` with the pending launch of
`youtube`: the id sent is `youtube.leanback.v4`. -/
theorem resolve_first_match_witness :
    ∃ m, (handleResponse asciiOnly PayloadFlag.empty "req_resolve_app"
            [("type", Json.str "response"), ("id", Json.str "req_resolve_app"),
             ("payload", Json.obj [("apps", Json.arr
               ([] ++ Json.obj [("title", Json.str "YouTube"),
                                ("id", Json.str "youtube.leanback.v4")] ::
                 [Json.obj [("title", Json.str "Youtube Kids"),
                            ("id", Json.str "youtube.kids")]]))])]
            "launch" "youtube"
            (executeCommand PayloadFlag.empty "launch" "youtube" (startProc "" none))).sent
        = (executeCommand PayloadFlag.empty "launch" "youtube" (startProc "" none)).sent
            ++ [m] ∧
      m.type = "request" ∧
      m.uri = endpointOf (ctxGet
        (executeCommand PayloadFlag.empty "launch" "youtube" (startProc "" none)).reqContext
        "pending_cmd") ∧
      payloadField m.payload "id" = Json.str (asString (mapIndex
        [("title", Json.str "YouTube"), ("id", Json.str "youtube.leanback.v4")] "id")) ∧
      (handleResponse asciiOnly PayloadFlag.empty "req_resolve_app"
            [("type", Json.str "response"), ("id", Json.str "req_resolve_app"),
             ("payload", Json.obj [("apps", Json.arr
               ([] ++ Json.obj [("title", Json.str "YouTube"),
                                ("id", Json.str "youtube.leanback.v4")] ::
                 [Json.obj [("title", Json.str "Youtube Kids"),
                            ("id", Json.str "youtube.kids")]]))])]
            "launch" "youtube"
            (executeCommand PayloadFlag.empty "launch" "youtube" (startProc "" none))).status
        = (executeCommand PayloadFlag.empty "launch" "youtube" (startProc "" none)).status :=
  resolve_first_match asciiOnly PayloadFlag.empty _ "launch" "youtube"
    (executeCommand PayloadFlag.empty "launch" "youtube" (startProc "" none))
    [("apps", Json.arr
      ([] ++ Json.obj [("title", Json.str "YouTube"), ("id", Json.str "youtube.leanback.v4")] ::
        [Json.obj [("title", Json.str "Youtube Kids"), ("id", Json.str "youtube.kids")]]))]
    [] [Json.obj [("title", Json.str "Youtube Kids"), ("id", Json.str "youtube.kids")]]
    [("title", Json.str "YouTube"), ("id", Json.str "youtube.leanback.v4")]
    (Or.inl (by decide)) rfl rfl (fun _ h => nomatch h) (by decide) (by decide)
    (fun h => nomatch h.2)

/-- C3 (the code at the failing inputs): while the launch of `youtube` is pending, a response
`req_resolve_app` without payload, and one whose app list holds an element that is not a
map, crash the process with a run-time panic instead of ending it with the resolution
failure (status 1); only an `apps` field that is not an array is reported as such. -/
theorem resolve_response_shape_mismatch_panics :
    (readerLoop asciiOnly { cmd := "launch", arg := "youtube", payload := PayloadFlag.empty }
        (startProc "" none)
        [registeredFrame,
         Frame.message [("type", Json.str "response"), ("id", Json.str "req_resolve_app")]]
      ).status = Status.panicked ∧
    (readerLoop asciiOnly { cmd := "launch", arg := "youtube", payload := PayloadFlag.empty }
        (startProc "" none)
        [registeredFrame,
         responseFrame "req_resolve_app" (Json.obj [("apps", Json.arr [Json.str "x"])])]
      ).status = Status.panicked ∧
    (readerLoop asciiOnly { cmd := "launch", arg := "youtube", payload := PayloadFlag.empty }
        (startProc "" none)
        [registeredFrame,
         responseFrame "req_resolve_app" (Json.obj [("apps", Json.str "x")])]
      ).status = Status.exited 1 := by
  refine ⟨?_, ?_, ?_⟩ <;> rfl

end Ssap
